import Mathlib

/-!
# libsel4arm-vmm, `vm.c`: device registry, reboot hooks, address translation, fault routing

A shallow embedding of `src/libsel4arm-vmm/src/vm.c`.

Conventions of the embedding
* C arrays inside `struct vm` are total maps from an index to an entry; the counters
  `ndevices` / `nhooks` say how many leading slots are in use.  A pointer into the device
  table (`struct device *`) is the index of the slot, `NULL` is `none`.
* The counters are C `int`s that start at 0 (`vm_create`) and are only ever incremented;
  they are kept in `Nat`.
* Function pointers are code addresses (`Nat`, 0 is `NULL`); what the pointed-to code does is
  supplied by an environment `Env`.
* Machine words (`uintptr_t`, `size_t`, `seL4_Word`) are `Nat`s below `2 ^ w`; arithmetic that
  can wrap is written with an explicit `% 2 ^ w`.
* Calls that leave `vm.c` are recorded, in order, in the `trace` of the `World`.
-/

namespace Vmm

/-! ## Data model -/

/-- CPU register snapshot `seL4_UserContext`: the instruction pointer, the first argument
register and the remaining registers in declaration order. -/
structure seL4_UserContext where
  pc : Nat
  r0 : Nat
  others : List Nat
deriving DecidableEq, Repr

/-- Modelled from the spec: the fault context of `fault.c` (outside `vm.c`):
"captured register snapshot, raw fault kind, faulting address (meaningful only for memory
faults), and a boolean resolved flag". -/
structure fault_t where
  regs : seL4_UserContext
  kind : Nat
  addr : Nat
  resolved : Bool
deriving DecidableEq, Repr

/-- Modelled from the spec: `struct device` of `devices.h` (outside `vm.c`):
"identity tag, human-readable name, guest-physical base address and size (defining a
half-open range), and a polymorphic fault-handling capability".  The fields read by `vm.c`
are `devid`, `name` and `handle_page_fault`. -/
structure device where
  devid : Nat
  name : String
  pstart : Nat
  size : Nat
  handle_page_fault : Nat
  priv : Nat
deriving DecidableEq, Repr

/-- The pair `struct reboot_hooks { fn; token }` built in `vm_register_reboot_callback`. -/
structure reboot_hooks where
  fn : Nat
  token : Nat
deriving DecidableEq, Repr

/-- The guest address space `vspace_t` as `vm.c` uses it: `vspace_get_cap` and
`vspace_get_cookie` of the external vspace library, as functions of the address.  The null
capability is 0; the cookie of a mapped address is the size in bits of its page. -/
structure vspace_t where
  get_cap : Nat → Nat
  get_cookie : Nat → Nat

/-- The fields of `struct vm` that `vm.c` reads or writes after construction.  `fault` is the
fault context `vm->fault` points to. -/
structure vm_t where
  name : String
  devices : Nat → device
  ndevices : Nat
  rb_hooks : Nat → reboot_hooks
  nhooks : Nat
  fault : fault_t
  vm_vspace : vspace_t

/-- The null pointer. -/
def NULL : Nat := 0

/-! ## Device registry -/

/-- `vm_add_device`: `MAX_DEVICES_PER_VM` comes from `vm.h` and is a parameter.
Returns the C return value and the VM after the call. -/
def vm_add_device (MAX_DEVICES_PER_VM : Nat) (vm : vm_t) (d : device) : Int × vm_t :=
  if vm.ndevices < MAX_DEVICES_PER_VM then
    (0, { vm with devices := Function.update vm.devices vm.ndevices d,
                  ndevices := vm.ndevices + 1 })
  else
    (-1, vm)

/-- Modelled from the spec: `dev_paddr_in_range` of `devices.h` (outside `vm.c`):
the half-open range `[base, base+size)` of the device contains `addr`. -/
def dev_paddr_in_range (addr : Nat) (d : device) : Bool :=
  decide (d.pstart ≤ addr ∧ addr < d.pstart + d.size)

/-- `cmp_id`: 0 when the identities agree. -/
def cmp_id (d : device) (data : Nat) : Int :=
  if d.devid = data then 0 else 1

/-- `cmp_ipa`: 0 when the address lies in the range of the device. -/
def cmp_ipa (d : device) (data : Nat) : Int :=
  if dev_paddr_in_range data d then 0 else 1

/-- The `for` loop of `vm_find_device`: `i` is the loop index (`ret` is `&vm->devices[i]`),
`k` the number of iterations left before `i` reaches `vm->ndevices`. -/
def vm_find_device_loop (vm : vm_t) (cmp : device → Int) : Nat → Nat → Option Nat
  | 0, _ => none
  | k + 1, i => if cmp (vm.devices i) = 0 then some i else vm_find_device_loop vm cmp k (i + 1)

/-- `vm_find_device`: the slot of the first installed device on which `cmp` yields 0. -/
def vm_find_device (vm : vm_t) (cmp : device → Int) : Option Nat :=
  vm_find_device_loop vm cmp vm.ndevices 0

/-- `vm_find_device_by_id`. -/
def vm_find_device_by_id (vm : vm_t) (id : Nat) : Option Nat :=
  vm_find_device vm (fun d => cmp_id d id)

/-- `vm_find_device_by_ipa`. -/
def vm_find_device_by_ipa (vm : vm_t) (ipa : Nat) : Option Nat :=
  vm_find_device vm (fun d => cmp_ipa d ipa)

/-! ## Reboot hook registration -/

/-- `vm_register_reboot_callback`: `MAX_REBOOT_HOOKS_PER_VM` comes from `vm.h` and is a
parameter. -/
def vm_register_reboot_callback (MAX_REBOOT_HOOKS_PER_VM : Nat) (vm : vm_t)
    (hook : Nat) (token : Nat) : Int × vm_t :=
  if hook = NULL then
    (-1, vm)
  else
    let rb : reboot_hooks := { fn := hook, token := token }
    if vm.nhooks < MAX_REBOOT_HOOKS_PER_VM then
      (0, { vm with rb_hooks := Function.update vm.rb_hooks vm.nhooks rb,
                    nhooks := vm.nhooks + 1 })
    else
      (-1, vm)

/-! ## Machine words -/

/-- Build-time configuration of `vm.c`: whether on-demand device installation is compiled in,
whether the AArch64 side of the `CONFIG_ARCH_AARCH64` conditionals is compiled (otherwise the
`#else`, AArch32, side), whether `assert` is compiled out (`NDEBUG`), and the width in bits of
`seL4_Word` / `uintptr_t`. -/
structure Config where
  CONFIG_ONDEMAND_DEVICE_INSTALL : Bool
  CONFIG_ARCH_AARCH64 : Bool
  NDEBUG : Bool
  seL4_WordBits : Nat
deriving DecidableEq, Repr

/-- Outcome of running a function that may hit an `assert` or contains an unbounded loop. -/
inductive Result (α : Type) where
  | ret (a : α)
  | assert_fail
  | timeout
deriving DecidableEq, Repr

/-- `BIT(n)`, i.e. `1ul << n`. -/
def BIT (n : Nat) : Nat := 1 <<< n

/-- `MASK(n)`, i.e. `BIT(n) - 1ul`. -/
def MASK (n : Nat) : Nat := BIT n - 1

/-- Bitwise complement `~x` of a word of `wb` bits. -/
def wnot (wb x : Nat) : Nat := (2 ^ wb - 1) ^^^ (x % 2 ^ wb)

/-- Word addition, wrapping at `2 ^ wb`. -/
def wadd (wb a b : Nat) : Nat := (a + b) % 2 ^ wb

/-- Word subtraction, wrapping at `2 ^ wb`. -/
def wsub (wb a b : Nat) : Nat := (a % 2 ^ wb + (2 ^ wb - b % 2 ^ wb)) % 2 ^ wb

/-! ## Address translation -/

/-- The null capability `seL4_CapNull`. -/
def seL4_CapNull : Nat := 0

/-- Result of the kernel call `seL4_ARM_Page_GetAddress`. -/
structure seL4_ARM_Page_GetAddress_t where
  error : Int
  paddr : Nat
deriving DecidableEq, Repr

/-- The `do ... while` loop of `vm_ipa_to_pa`; `ipa` and `pa_base` are the loop variables, the
first argument bounds the number of iterations.  `getAddress` is the kernel call
`seL4_ARM_Page_GetAddress` as a function of the capability. -/
def vm_ipa_to_pa_loop (cfg : Config) (getAddress : Nat → seL4_ARM_Page_GetAddress_t)
    (vm : vm_t) (ipa_base size : Nat) : Nat → Nat → Nat → Result Nat
  | 0, _, _ => Result.timeout
  | fuel + 1, ipa, pa_base =>
    let cap := vm.vm_vspace.get_cap ipa
    if cap = seL4_CapNull then Result.ret 0
    else
      let bits := vm.vm_vspace.get_cookie ipa
      if cfg.NDEBUG = false ∧ ¬ (bits = 12 ∨ bits = 21) then Result.assert_fail
      else
        let ret := getAddress cap
        if ret.error ≠ 0 then Result.ret 0
        else if ipa = ipa_base then
          let pa_base1 := wadd cfg.seL4_WordBits ret.paddr (ipa &&& MASK bits)
          let ipa1 := ipa &&& wnot cfg.seL4_WordBits (MASK bits)
          let ipa2 := wadd cfg.seL4_WordBits ipa1 (BIT bits)
          if wsub cfg.seL4_WordBits ipa2 ipa_base < size then
            vm_ipa_to_pa_loop cfg getAddress vm ipa_base size fuel ipa2 pa_base1
          else Result.ret pa_base1
        else if wsub cfg.seL4_WordBits ret.paddr pa_base ≠ wsub cfg.seL4_WordBits ipa ipa_base then
          Result.ret 0
        else
          let ipa2 := wadd cfg.seL4_WordBits ipa (BIT bits)
          if wsub cfg.seL4_WordBits ipa2 ipa_base < size then
            vm_ipa_to_pa_loop cfg getAddress vm ipa_base size fuel ipa2 pa_base
          else Result.ret pa_base

/-- `vm_ipa_to_pa`: the loop entered with `ipa = ipa_base` and `pa_base = 0`; `fuel` bounds
the number of loop iterations. -/
def vm_ipa_to_pa (cfg : Config) (getAddress : Nat → seL4_ARM_Page_GetAddress_t)
    (vm : vm_t) (ipa_base size : Nat) (fuel : Nat) : Result Nat :=
  vm_ipa_to_pa_loop cfg getAddress vm ipa_base size fuel ipa_base 0

/-! ## The world outside `vm.c` -/

/-- Calls that leave `vm.c`, in the order they are made.  Callbacks carry the value they
returned. -/
inductive Event where
  | dev_handle_page_fault (fn d : Nat) (ret : Int)
  | reboot_hook (fn token : Nat) (ret : Int)
  | print_fault
  | abandon_fault
  | restart_fault
  | new_fault
  | new_wfi_fault
  | map_vm_device (pa va : Nat)
  | map_vm_ram (addr : Nat)
  | handle_vgic_maintenance (idx : Int)
  | seL4_TCB_ReadRegisters
  | seL4_TCB_WriteRegisters (regs : seL4_UserContext)
  | seL4_Reply
deriving DecidableEq, Repr

/-- Everything the code of `vm.c` can observe or change: the VM structure, the guest's
register file held by the kernel, the message registers of the IPC buffer, the kernel's
frame table behind `seL4_ARM_Page_GetAddress`, state private to the callbacks (`heap`), the
value an uninitialised local variable happens to hold (`indeterminate`), and the trace of
outgoing calls. -/
structure World where
  vm : vm_t
  tcb_regs : seL4_UserContext
  mr : Nat → Nat
  getAddress : Nat → seL4_ARM_Page_GetAddress_t
  heap : Nat → Nat
  indeterminate : Nat
  trace : List Event

/-- What the code behind function pointers and in the other compilation units does.  Every
entry receives the whole world (callees get `vm_t *`) and yields its C return value and the
world it leaves behind; the trace is kept by the caller in `vm.c`. -/
structure Env where
  dev_handle_page_fault : Nat → Nat → World → Int × World
  reboot_hook : Nat → Nat → World → Int × World
  map_vm_device : Nat → Nat → World → Nat × World
  map_vm_ram : Nat → World → Nat × World
  handle_vgic_maintenance : Int → World → Int × World

/-- Append an event to the trace. -/
def World.emit (w : World) (e : Event) : World := { w with trace := w.trace ++ [e] }

/-- Run a callee on the world, keeping the trace of the caller and recording the event
computed from the return value. -/
def World.call {α : Type} (w : World) (f : World → α × World) (e : α → Event) : α × World :=
  let r := f w
  (r.1, { r.2 with trace := w.trace ++ [e r.1] })

/-! ## Fault context (`fault.c`) -/

/-- Message register holding the faulting address of a VM fault (`seL4_VMFault_Addr`). -/
def seL4_VMFault_Addr : Nat := 1

/-- Message register holding the fault status of a VM fault (`seL4_VMFault_FSR`). -/
def seL4_VMFault_FSR : Nat := 3

/-- Modelled from the spec: `fault_get_address` of `fault.c`: the faulting address of the
fault context. -/
def fault_get_address (f : fault_t) : Nat := f.addr

/-- Modelled from the spec: `fault_get_ctx` of `fault.c`: the captured register snapshot. -/
def fault_get_ctx (f : fault_t) : seL4_UserContext := f.regs

/-- Modelled from the spec: `fault_handled` of `fault.c`: the resolved flag. -/
def fault_handled (f : fault_t) : Bool := f.resolved

/-- Modelled from the spec: `new_fault` of `fault.c`: "`begin` captures a fresh register
snapshot and fault kind from the incoming message and clears resolved".  Returns 0. -/
def new_fault (w : World) : Int × World :=
  (0, { w with vm := { w.vm with fault := { regs := w.tcb_regs, kind := w.mr seL4_VMFault_FSR,
                                            addr := w.mr seL4_VMFault_Addr,
                                            resolved := false } },
               trace := w.trace ++ [Event.new_fault] })

/-- Kind tag of a wait-for-interrupt fault. -/
def FAULT_KIND_WFI : Nat := 0x01000000

/-- Modelled from the spec: `new_wfi_fault` of `fault.c`: the dispatcher "creates a
suspend-only fault: guest is not resumed until externally signaled"; the register snapshot is
captured afresh. -/
def new_wfi_fault (w : World) : World :=
  { w with vm := { w.vm with fault := { regs := w.tcb_regs, kind := FAULT_KIND_WFI,
                                        addr := 0, resolved := false } },
           trace := w.trace ++ [Event.new_wfi_fault] }

/-- Modelled from the spec: `print_fault` of `fault.c`: diagnostic output only. -/
def print_fault (w : World) : World := w.emit Event.print_fault

/-- Modelled from the spec: `abandon_fault` of `fault.c`: "`abandon` marks resolved=true but
signals that the guest must not resume". -/
def abandon_fault (w : World) : World :=
  { w with vm := { w.vm with fault := { w.vm.fault with resolved := true } },
           trace := w.trace ++ [Event.abandon_fault] }

/-- Modelled from the spec: `restart_fault` of `fault.c`: "`restart` marks resolved=true and
schedules guest resumption with the (possibly modified) register snapshot written back". -/
def restart_fault (w : World) : World :=
  { w with vm := { w.vm with fault := { w.vm.fault with resolved := true } },
           tcb_regs := w.vm.fault.regs,
           trace := w.trace ++ [Event.restart_fault] }

/-! ## Page-fault routing -/

/-- `handle_page_fault(vm, fault)` with `fault == vm->fault`. -/
def handle_page_fault (env : Env) (cfg : Config) (w : World) : Int × World :=
  match vm_find_device_by_ipa w.vm (fault_get_address w.vm.fault) with
  | some d =>
    w.call (env.dev_handle_page_fault (w.vm.devices d).handle_page_fault d)
      (Event.dev_handle_page_fault (w.vm.devices d).handle_page_fault d)
  | none =>
    if cfg.CONFIG_ONDEMAND_DEVICE_INSTALL then
      let addr := fault_get_address w.vm.fault &&& wnot cfg.seL4_WordBits 0xfff
      if addr = 0 then
        (-1, print_fault w)
      else
        let m1 := w.call (env.map_vm_device addr addr) (fun _ => Event.map_vm_device addr addr)
        if m1.1 ≠ NULL then
          (0, restart_fault m1.2)
        else
          let m2 := m1.2.call (env.map_vm_ram addr) (fun _ => Event.map_vm_ram addr)
          if m2.1 ≠ NULL then
            (0, restart_fault m2.2)
          else
            (-1, abandon_fault (print_fault m2.2))
    else
      (-1, abandon_fault (print_fault w))

/-- The `do ... while (!fault_handled(fault))` loop of the `seL4_Fault_VMFault` case of
`vm_event`; the first argument bounds the number of iterations. -/
def vm_event_page_fault_loop (env : Env) (cfg : Config) : Nat → World → Result (Int × World)
  | 0, _ => Result.timeout
  | fuel + 1, w =>
    let r := handle_page_fault env cfg w
    if r.1 ≠ 0 then Result.ret (-1, r.2)
    else if fault_handled r.2.vm.fault = false then vm_event_page_fault_loop env cfg fuel r.2
    else Result.ret (0, r.2)

/-! ## Reboot hooks -/

/-- The `for` loop of `vm_process_reboot_callbacks`; `i` is the loop index and the first
argument bounds the number of iterations (`vm->nhooks` is re-read on every iteration). -/
def vm_process_reboot_callbacks_loop (env : Env) : Nat → Nat → World → Result (Int × World)
  | 0, _, _ => Result.timeout
  | fuel + 1, i, w =>
    if i < w.vm.nhooks then
      let rb := w.vm.rb_hooks i
      if rb.fn = NULL then Result.ret (-1, w)
      else
        let r := w.call (env.reboot_hook rb.fn rb.token) (Event.reboot_hook rb.fn rb.token)
        if r.1 ≠ 0 then Result.ret (r.1, r.2)
        else vm_process_reboot_callbacks_loop env fuel (i + 1) r.2
    else Result.ret (0, w)

/-- `vm_process_reboot_callbacks`. -/
def vm_process_reboot_callbacks (env : Env) (fuel : Nat) (w : World) : Result (Int × World) :=
  vm_process_reboot_callbacks_loop env fuel 0 w

/-! ## Fault dispatch -/

/-- Constants of the kernel interface (`libsel4`) that `vm.c` uses: the fault labels tested by
`vm_event`, and positions and lengths in the fault messages. -/
structure Abi where
  seL4_Fault_VMFault : Nat
  seL4_Fault_UnknownSyscall : Nat
  seL4_Fault_UserException : Nat
  seL4_Fault_VGICMaintenance : Nat
  seL4_Fault_VCPUFault : Nat
  seL4_UnknownSyscall_Syscall : Nat
  seL4_UnknownSyscall_FaultIP : Nat
  seL4_UnknownSyscall_ARG0 : Nat
  seL4_UnknownSyscall_Length : Nat
  seL4_UserException_Length : Nat
  seL4_VGICMaintenance_Length : Nat
  seL4_VCPUFault_Length : Nat
deriving DecidableEq, Repr

/-- The message tag `seL4_MessageInfo_t`: label and length. -/
structure seL4_MessageInfo_t where
  label : Nat
  length : Nat
deriving DecidableEq, Repr

/-- `assert(c)` followed by the rest of the function: a failed assertion aborts unless
assertions are compiled out. -/
def cassert {α : Type} (cfg : Config) (c : Bool) (k : Result α) : Result α :=
  if cfg.NDEBUG = true ∨ c = true then k else Result.assert_fail

/-- Sequencing of fallible steps. -/
def Result.bind {α β : Type} (r : Result α) (k : α → Result β) : Result β :=
  match r with
  | Result.ret a => k a
  | Result.assert_fail => Result.assert_fail
  | Result.timeout => Result.timeout

/-- The kernel call `seL4_TCB_ReadRegisters` on the guest's TCB: yields the error code (0, the
TCB capability of a constructed VM is valid) and the guest's registers. -/
def seL4_TCB_ReadRegisters (w : World) : Int × seL4_UserContext × World :=
  (0, w.tcb_regs, w.emit Event.seL4_TCB_ReadRegisters)

/-- The kernel call `seL4_TCB_WriteRegisters` on the guest's TCB. -/
def seL4_TCB_WriteRegisters (w : World) (regs : seL4_UserContext) : Int × World :=
  (0, { w with tcb_regs := regs, trace := w.trace ++ [Event.seL4_TCB_WriteRegisters regs] })

/-- `seL4_Reply(seL4_MessageInfo_new(0, 0, 0, 0))`. -/
def seL4_Reply (w : World) : World := w.emit Event.seL4_Reply

/-- Conversion of a message word to C `int`. -/
def toCInt (v : Nat) : Int :=
  if v % 2 ^ 32 < 2 ^ 31 then ((v % 2 ^ 32 : Nat) : Int) else ((v % 2 ^ 32 : Nat) : Int) - 2 ^ 32

/-- `handle_exception`: reads and prints the guest's registers, returns 1. -/
def handle_exception (cfg : Config) (w : World) (_ip : Nat) : Result (Int × World) :=
  let r := seL4_TCB_ReadRegisters w
  cassert cfg (decide (r.1 = 0)) (Result.ret (1, r.2.2))

/-- `sys_pa_to_ipa`.  In the AArch32 build `r0` is read into a `uint32_t` and written back;
in the AArch64 build both conditionals are empty and no register is read or written. -/
def sys_pa_to_ipa (cfg : Config) (regs : seL4_UserContext) : seL4_UserContext :=
  if cfg.CONFIG_ARCH_AARCH64 then
    regs
  else
    let pa := regs.r0 % 2 ^ 32
    { regs with r0 := pa }

/-- `sys_ipa_to_pa`.  In the AArch32 build `ipa` is read from `r0` and the result is written
to `r0`; in the AArch64 build both conditionals are empty: the local `ipa` is never
initialised and no register is written. -/
def sys_ipa_to_pa (env : Env) (cfg : Config) (w : World) (regs : seL4_UserContext) :
    Result (seL4_UserContext × World) :=
  let ipa := if cfg.CONFIG_ARCH_AARCH64 then w.indeterminate else regs.r0
  let cap := w.vm.vm_vspace.get_cap ipa
  let finish (w1 : World) (cap1 : Nat) : Result (seL4_UserContext × World) :=
    let ret := w1.getAddress cap1
    cassert cfg (decide (ret.error = 0))
      (Result.ret (if cfg.CONFIG_ARCH_AARCH64 then regs else { regs with r0 := ret.paddr }, w1))
  if cap = seL4_CapNull then
    let m := w.call (env.map_vm_ram ipa) (fun _ => Event.map_vm_ram ipa)
    if m.1 = NULL then
      Result.ret (regs, m.2)
    else
      let cap1 := m.2.vm.vm_vspace.get_cap ipa
      cassert cfg (decide (cap1 ≠ seL4_CapNull)) (finish m.2 cap1)
  else
    finish w cap

/-- `sys_nop`. -/
def sys_nop (regs : seL4_UserContext) : seL4_UserContext := regs

/-- `handle_syscall`. -/
def handle_syscall (env : Env) (abi : Abi) (cfg : Config) (w : World) (_length : Nat) :
    Result (Int × World) :=
  let syscall := w.mr abi.seL4_UnknownSyscall_Syscall
  let r := seL4_TCB_ReadRegisters w
  cassert cfg (decide (r.1 = 0))
    (let regs : seL4_UserContext := { r.2.1 with pc := wadd cfg.seL4_WordBits r.2.1.pc 4 }
     let w1 := r.2.2
     let finish (p : seL4_UserContext × World) : Result (Int × World) :=
       let wr := seL4_TCB_WriteRegisters p.2 p.1
       cassert cfg (decide (wr.1 = 0)) (Result.ret (0, wr.2))
     if syscall = 65 then finish (sys_pa_to_ipa cfg regs, w1)
     else if syscall = 66 then (sys_ipa_to_pa env cfg w1 regs).bind finish
     else if syscall = 67 then finish (sys_nop regs, w1)
     else Result.ret (-1, w1))

/-- The tail shared by three cases of `vm_event`: `assert(!err)`, reply when `err` is 0, leave
the `switch` and return 0. -/
def reply_unless_error (cfg : Config) (r : Int × World) : Result (Int × World) :=
  cassert cfg (decide (r.1 = 0))
    (if r.1 = 0 then Result.ret (0, seL4_Reply r.2) else Result.ret (0, r.2))

/-- `vm_event`.  `fuel` bounds the iterations of the page-fault loop.  The `switch` on the
label is taken in the order of its cases (the labels are distinct constants). -/
def vm_event (env : Env) (abi : Abi) (cfg : Config) (fuel : Nat) (w : World)
    (tag : seL4_MessageInfo_t) : Result (Int × World) :=
  let label := tag.label
  let length := tag.length
  if label = abi.seL4_Fault_VMFault then
    let r := new_fault w
    cassert cfg (decide (r.1 = 0)) (vm_event_page_fault_loop env cfg fuel r.2)
  else if label = abi.seL4_Fault_UnknownSyscall then
    cassert cfg (decide (length = abi.seL4_UnknownSyscall_Length))
      ((handle_syscall env abi cfg w length).bind (reply_unless_error cfg))
  else if label = abi.seL4_Fault_UserException then
    cassert cfg (decide (length = abi.seL4_UserException_Length))
      ((handle_exception cfg w (w.mr 0)).bind (reply_unless_error cfg))
  else if label = abi.seL4_Fault_VGICMaintenance then
    cassert cfg (decide (length = abi.seL4_VGICMaintenance_Length))
      (let idx := toCInt (w.mr abi.seL4_UnknownSyscall_ARG0)
       cassert cfg (decide (0 ≤ idx))
         (reply_unless_error cfg
           (w.call (env.handle_vgic_maintenance idx) (fun _ => Event.handle_vgic_maintenance idx))))
  else if label = abi.seL4_Fault_VCPUFault then
    cassert cfg (decide (length = abi.seL4_VCPUFault_Length))
      (let hsr := w.mr abi.seL4_UnknownSyscall_ARG0 % 2 ^ 32
       if hsr >>> 26 = 1 then
         Result.ret (0, new_wfi_fault w)
       else if hsr &&& 0xfc300000 = 0x60200000 ∨ hsr = 0xf2000800 then
         let w1 := new_wfi_fault w
         let regs := fault_get_ctx w1.vm.fault
         let regs1 : seL4_UserContext := { regs with pc := wadd cfg.seL4_WordBits regs.pc 4 }
         let w2 : World := { w1 with vm := { w1.vm with fault := { w1.vm.fault with regs := regs1 } } }
         let wr := seL4_TCB_WriteRegisters w2 regs1
         Result.ret (0, restart_fault wr.2)
       else
         Result.ret (-1, w))
  else
    Result.ret (-1, w)

/-! ## Sample data used by the concrete instances -/

/-- A device descriptor with the given identity, range and handler. -/
def mkDev (id base size handler : Nat) : device :=
  { devid := id, name := "dev", pstart := base, size := size,
    handle_page_fault := handler, priv := 0 }

/-- An empty register snapshot. -/
def regs0 : seL4_UserContext := { pc := 0, r0 := 0, others := [] }

/-- A fault context for a fault at `addr`. -/
def faultAt (addr : Nat) : fault_t := { regs := regs0, kind := 0, addr := addr, resolved := false }

/-- Device table with two installed devices, `[0x1000,0x2000)` and `[0x3000,0x3100)`. -/
def sampleDevices : Nat → device
  | 0 => mkDev 1 0x1000 0x1000 100
  | 1 => mkDev 2 0x3000 0x100 200
  | _ => mkDev 0 0 0 0

/-- A VM with the two sample devices and no reboot hooks. -/
def sampleVm : vm_t :=
  { name := "vm", devices := sampleDevices, ndevices := 2,
    rb_hooks := fun _ => { fn := 0, token := 0 }, nhooks := 0, fault := faultAt 0x3010,
    vm_vspace := { get_cap := fun _ => 0, get_cookie := fun _ => 0 } }

/-- World state before hook `j` runs when hooks `0..j-1` of the registry of `w` have all been
run in order, starting from `w`. -/
def hook_state (env : Env) (w : World) : Nat → World
  | 0 => w
  | j + 1 =>
    ((hook_state env w j).call (env.reboot_hook (w.vm.rb_hooks j).fn (w.vm.rb_hooks j).token)
      (Event.reboot_hook (w.vm.rb_hooks j).fn (w.vm.rb_hooks j).token)).2

/-- Return code of hook `j` when it is run, with its own token, after hooks `0..j-1`. -/
def hook_ret (env : Env) (w : World) (j : Nat) : Int :=
  (env.reboot_hook (w.vm.rb_hooks j).fn (w.vm.rb_hooks j).token (hook_state env w j)).1

/-- The callbacks leave the reboot-hook registry of the VM alone. -/
def HooksKeepRegistry (env : Env) : Prop :=
  ∀ fn token w, (env.reboot_hook fn token w).2.vm.rb_hooks = w.vm.rb_hooks ∧
    (env.reboot_hook fn token w).2.vm.nhooks = w.vm.nhooks

/-- A world around the sample VM; the fault message carries the address `0x3010`. -/
def sampleWorld : World :=
  { vm := sampleVm, tcb_regs := regs0, mr := fun i => if i = 1 then 0x3010 else 0,
    getAddress := fun _ => { error := 0, paddr := 0 }, heap := fun _ => 0, indeterminate := 0,
    trace := [] }

/-- Callbacks for the concrete instances: a device handler returns its own code address plus
the slot it was called for, the reboot hook at address 2 fails with code 7, all other hooks
succeed, and no mapping can be installed. -/
def sampleEnv : Env :=
  { dev_handle_page_fault := fun fn d w => (((fn + d : Nat) : Int), w),
    reboot_hook := fun fn _ w => (if fn = 2 then 7 else 0, w),
    map_vm_device := fun _ _ w => (0, w),
    map_vm_ram := fun _ w => (0, w),
    handle_vgic_maintenance := fun _ w => (0, w) }

/-- Hooks `A` (address 1, token 10), `B` (address 2, token 20), `C` (address 3, token 30). -/
def sampleHooks : Nat → reboot_hooks
  | 0 => { fn := 1, token := 10 }
  | 1 => { fn := 2, token := 20 }
  | 2 => { fn := 3, token := 30 }
  | _ => { fn := 0, token := 0 }

/-- The sample world with the three hooks `A`, `B`, `C` registered. -/
def hooksWorld : World :=
  { sampleWorld with vm := { sampleVm with rb_hooks := sampleHooks, nhooks := 3 } }

/-- Configuration of the concrete instances: the AArch32 build with 32-bit words, assertions
on, on-demand device installation off (the default). -/
def sampleCfg : Config :=
  { CONFIG_ONDEMAND_DEVICE_INSTALL := false, CONFIG_ARCH_AARCH64 := false, NDEBUG := false,
    seL4_WordBits := 32 }

/-- Kernel interface constants for the concrete instances. -/
def sampleAbi : Abi :=
  { seL4_Fault_VMFault := 5, seL4_Fault_UnknownSyscall := 2, seL4_Fault_UserException := 3,
    seL4_Fault_VGICMaintenance := 6, seL4_Fault_VCPUFault := 7,
    seL4_UnknownSyscall_Syscall := 12, seL4_UnknownSyscall_FaultIP := 8,
    seL4_UnknownSyscall_ARG0 := 0, seL4_UnknownSyscall_Length := 13,
    seL4_UserException_Length := 5, seL4_VGICMaintenance_Length := 1,
    seL4_VCPUFault_Length := 1 }

/-- The calls made when hooks `0..n-1` of the registry of `w` are run in order: each hook
with its own token, together with the code it returned. -/
def hook_calls (env : Env) (w : World) (n : Nat) : List Event :=
  (List.range n).map (fun j =>
    Event.reboot_hook (w.vm.rb_hooks j).fn (w.vm.rb_hooks j).token (hook_ret env w j))

/-- The sample world with a fault message for the address `0x2000`, which lies in no sample
device. -/
def unownedWorld : World :=
  { sampleWorld with vm := { sampleVm with fault := faultAt 0x2000 },
                     mr := fun i => if i = 1 then 0x2000 else 0 }

/-! ## Vocabulary for the address-translation theorems -/

/-- The guest-physical address `a` is mapped and its address query succeeds:
`vspace_get_cap` yields a capability and `seL4_ARM_Page_GetAddress` reports no error. -/
def page_mapped (getAddress : Nat → seL4_ARM_Page_GetAddress_t) (vm : vm_t) (a : Nat) : Prop :=
  vm.vm_vspace.get_cap a ≠ seL4_CapNull ∧ (getAddress (vm.vm_vspace.get_cap a)).error = 0

instance (getAddress : Nat → seL4_ARM_Page_GetAddress_t) (vm : vm_t) (a : Nat) :
    Decidable (page_mapped getAddress vm a) := by
  unfold page_mapped; infer_instance

/-- Host-physical address behind the guest-physical address `a`: the address of the frame
mapped at the page of `a` plus the offset of `a` in that page. -/
def host_pa (getAddress : Nat → seL4_ARM_Page_GetAddress_t) (vm : vm_t) (a : Nat) : Nat :=
  (getAddress (vm.vm_vspace.get_cap a)).paddr + a % 2 ^ vm.vm_vspace.get_cookie a

/-- Invariants of the guest mapping table as the vspace library and the kernel keep it, for
words of `wb` bits: a mapped address belongs to a 4 KiB or 2 MiB page (cookie 12 or 21);
every address of that naturally aligned page carries the same capability and cookie; and the
frame behind it is a word, aligned to the page size. -/
structure MappingWellFormed (wb : Nat) (getAddress : Nat → seL4_ARM_Page_GetAddress_t)
    (vm : vm_t) : Prop where
  cookie_bits : ∀ a, a < 2 ^ wb → vm.vm_vspace.get_cap a ≠ seL4_CapNull →
    vm.vm_vspace.get_cookie a = 12 ∨ vm.vm_vspace.get_cookie a = 21
  same_page : ∀ a a1, a < 2 ^ wb → vm.vm_vspace.get_cap a ≠ seL4_CapNull →
    a1 / 2 ^ vm.vm_vspace.get_cookie a = a / 2 ^ vm.vm_vspace.get_cookie a →
    vm.vm_vspace.get_cap a1 = vm.vm_vspace.get_cap a ∧
      vm.vm_vspace.get_cookie a1 = vm.vm_vspace.get_cookie a
  frame : ∀ a, a < 2 ^ wb → vm.vm_vspace.get_cap a ≠ seL4_CapNull →
    (getAddress (vm.vm_vspace.get_cap a)).error = 0 →
    (getAddress (vm.vm_vspace.get_cap a)).paddr % 2 ^ vm.vm_vspace.get_cookie a = 0 ∧
      (getAddress (vm.vm_vspace.get_cap a)).paddr < 2 ^ wb

/-- A guest address space with three 4 KiB pages at `0x10000`, `0x11000`, `0x12000`; the
capability of a page is its page number. -/
def sampleVspace : vspace_t :=
  { get_cap := fun a => if 0x10000 ≤ a ∧ a < 0x13000 then a / 4096 else 0,
    get_cookie := fun _ => 12 }

/-- The sample VM with the three-page guest address space. -/
def mapVm : vm_t := { sampleVm with vm_vspace := sampleVspace }

/-- Frames laid out contiguously from host-physical `0x80000000`. -/
def contiguousFrames (cap : Nat) : seL4_ARM_Page_GetAddress_t :=
  { error := 0, paddr := 0x80000000 + (cap - 16) * 4096 }

/-- Frames where the second page jumps to host-physical `0x90000000`. -/
def brokenFrames (cap : Nat) : seL4_ARM_Page_GetAddress_t :=
  { error := 0, paddr := if cap = 17 then 0x90000000 else 0x80000000 + (cap - 16) * 4096 }

/-- Frames laid out contiguously from host-physical address 0. -/
def zeroFrames (cap : Nat) : seL4_ARM_Page_GetAddress_t :=
  { error := 0, paddr := (cap - 16) * 4096 }

/-- The five fault labels tested by `vm_event` are pairwise different (they are the case
constants of one `switch`). -/
def LabelsDistinct (abi : Abi) : Prop :=
  abi.seL4_Fault_VMFault ≠ abi.seL4_Fault_UnknownSyscall ∧
  abi.seL4_Fault_VMFault ≠ abi.seL4_Fault_UserException ∧
  abi.seL4_Fault_VMFault ≠ abi.seL4_Fault_VGICMaintenance ∧
  abi.seL4_Fault_VMFault ≠ abi.seL4_Fault_VCPUFault ∧
  abi.seL4_Fault_UnknownSyscall ≠ abi.seL4_Fault_UserException ∧
  abi.seL4_Fault_UnknownSyscall ≠ abi.seL4_Fault_VGICMaintenance ∧
  abi.seL4_Fault_UnknownSyscall ≠ abi.seL4_Fault_VCPUFault ∧
  abi.seL4_Fault_UserException ≠ abi.seL4_Fault_VGICMaintenance ∧
  abi.seL4_Fault_UserException ≠ abi.seL4_Fault_VCPUFault ∧
  abi.seL4_Fault_VGICMaintenance ≠ abi.seL4_Fault_VCPUFault

instance (abi : Abi) : Decidable (LabelsDistinct abi) := by
  unfold LabelsDistinct; infer_instance

/-- The sample world with the given value in message register 0 (the trap syndrome of a
VCPU fault) and the guest stopped at `pc = 0x8000`. -/
def vcpuWorld (hsr : Nat) : World :=
  { sampleWorld with mr := fun i => if i = 0 then hsr else 0,
                     tcb_regs := { pc := 0x8000, r0 := 5, others := [1, 2, 3] } }

/-- The sample world with hypercall number `scno` in the syscall message register and `arg`
in the guest's argument register; the guest address space is the three-page sample with
contiguous frames. -/
def syscallWorld (scno arg : Nat) : World :=
  { sampleWorld with vm := mapVm, getAddress := contiguousFrames,
                     mr := fun i => if i = 12 then scno else 0,
                     tcb_regs := { pc := 0x8000, r0 := arg, others := [1, 2, 3] } }

/-- The sample configuration built with `NDEBUG` (assertions compiled out). -/
def releaseCfg : Config := { sampleCfg with NDEBUG := true }

/-- The sample configuration with on-demand device installation compiled in. -/
def ondemandCfg : Config := { sampleCfg with CONFIG_ONDEMAND_DEVICE_INSTALL := true }

/-- The sample world with a fault at address `0x10`, in the null page, which lies in no
sample device. -/
def nullFaultWorld : World :=
  { sampleWorld with vm := { sampleVm with fault := faultAt 0x10 } }

/-! ## Sequences of registry calls -/

/-- One call of the registry interface of `vm.c`, with its arguments. -/
inductive ApiCall where
  | add_device (d : device)
  | register_reboot_callback (hook token : Nat)
  | find_device_by_id (id : Nat)
  | find_device_by_ipa (ipa : Nat)
  | process_reboot_callbacks (fuel : Nat)

/-- The world after one registry call; `none` when `vm_process_reboot_callbacks` does not
return within its fuel.  The lookups return a pointer and change nothing. -/
def api_step (env : Env) (MAX_DEVICES_PER_VM MAX_REBOOT_HOOKS_PER_VM : Nat) (w : World) :
    ApiCall → Option World
  | ApiCall.add_device d => some { w with vm := (vm_add_device MAX_DEVICES_PER_VM w.vm d).2 }
  | ApiCall.register_reboot_callback hook token =>
    some { w with vm := (vm_register_reboot_callback MAX_REBOOT_HOOKS_PER_VM w.vm hook token).2 }
  | ApiCall.find_device_by_id id =>
    match vm_find_device_by_id w.vm id with
    | _ => some w
  | ApiCall.find_device_by_ipa ipa =>
    match vm_find_device_by_ipa w.vm ipa with
    | _ => some w
  | ApiCall.process_reboot_callbacks fuel =>
    match vm_process_reboot_callbacks env fuel w with
    | Result.ret r => some r.2
    | _ => none

/-- The world after a sequence of registry calls, if they all return. -/
def api_run (env : Env) (MAX_DEVICES_PER_VM MAX_REBOOT_HOOKS_PER_VM : Nat) :
    World → List ApiCall → Option World
  | w, [] => some w
  | w, c :: cs =>
    match api_step env MAX_DEVICES_PER_VM MAX_REBOOT_HOOKS_PER_VM w c with
    | some w1 => api_run env MAX_DEVICES_PER_VM MAX_REBOOT_HOOKS_PER_VM w1 cs
    | none => none

/-- Both counters of the VM are within the capacity of their tables. -/
def CountsWithinCapacity (MAX_DEVICES_PER_VM MAX_REBOOT_HOOKS_PER_VM : Nat) (vm : vm_t) : Prop :=
  vm.ndevices ≤ MAX_DEVICES_PER_VM ∧ vm.nhooks ≤ MAX_REBOOT_HOOKS_PER_VM

/-- The reboot callbacks, which receive the VM, do not push its counters over capacity. -/
def HooksKeepCounts (env : Env) (MAX_DEVICES_PER_VM MAX_REBOOT_HOOKS_PER_VM : Nat) : Prop :=
  ∀ fn token w, CountsWithinCapacity MAX_DEVICES_PER_VM MAX_REBOOT_HOOKS_PER_VM w.vm →
    CountsWithinCapacity MAX_DEVICES_PER_VM MAX_REBOOT_HOOKS_PER_VM
      (env.reboot_hook fn token w).2.vm

/-- A freshly created VM as `vm_create` leaves the registry: no devices, no hooks. -/
def freshWorld : World :=
  { sampleWorld with vm := { sampleVm with ndevices := 0, nhooks := 0 } }

/-! ## Lemmas on the lookup loop -/

theorem vm_find_device_loop_some (vm : vm_t) (cmp : device → Int) :
    ∀ (k i j : Nat), vm_find_device_loop vm cmp k i = some j →
      i ≤ j ∧ j < i + k ∧ cmp (vm.devices j) = 0 ∧
        ∀ l, i ≤ l → l < j → cmp (vm.devices l) ≠ 0 := by
  intro k
  induction k with
  | zero => intro i j h; simp [vm_find_device_loop] at h
  | succ k ih =>
    intro i j h
    unfold vm_find_device_loop at h
    by_cases hc : cmp (vm.devices i) = 0
    · rw [if_pos hc] at h
      have hij : i = j := by simpa using h
      subst hij
      exact ⟨le_refl _, by omega, hc, fun l h1 h2 => by omega⟩
    · rw [if_neg hc] at h
      obtain ⟨h1, h2, h3, h4⟩ := ih (i + 1) j h
      refine ⟨by omega, by omega, h3, ?_⟩
      intro l hl1 hl2
      by_cases hli : l = i
      · subst hli; exact hc
      · exact h4 l (by omega) hl2

theorem vm_find_device_loop_none (vm : vm_t) (cmp : device → Int) :
    ∀ (k i : Nat), vm_find_device_loop vm cmp k i = none →
      ∀ l, i ≤ l → l < i + k → cmp (vm.devices l) ≠ 0 := by
  intro k
  induction k with
  | zero => intro i _ l h1 h2; omega
  | succ k ih =>
    intro i h l hl1 hl2
    unfold vm_find_device_loop at h
    by_cases hc : cmp (vm.devices i) = 0
    · rw [if_pos hc] at h; simp at h
    · rw [if_neg hc] at h
      by_cases hli : l = i
      · subst hli; exact hc
      · exact ih (i + 1) h l (by omega) (by omega)

/-- What `vm_find_device` returns: the lowest slot below `ndevices` accepted by `cmp`. -/
theorem vm_find_device_some_iff (vm : vm_t) (cmp : device → Int) (j : Nat) :
    vm_find_device vm cmp = some j ↔
      (j < vm.ndevices ∧ cmp (vm.devices j) = 0 ∧ ∀ l, l < j → cmp (vm.devices l) ≠ 0) := by
  constructor
  · intro h
    obtain ⟨_, h2, h3, h4⟩ := vm_find_device_loop_some vm cmp _ _ _ h
    exact ⟨by omega, h3, fun l hl => h4 l (Nat.zero_le _) hl⟩
  · rintro ⟨h1, h2, h3⟩
    cases hr : vm_find_device vm cmp with
    | none =>
      exact absurd h2 (vm_find_device_loop_none vm cmp _ _ hr j (Nat.zero_le _) (by omega))
    | some j' =>
      obtain ⟨_, g2, g3, g4⟩ := vm_find_device_loop_some vm cmp _ _ _ hr
      rcases Nat.lt_trichotomy j j' with hlt | heq | hgt
      · exact absurd h2 (g4 j (Nat.zero_le _) hlt)
      · rw [heq]
      · exact absurd g3 (h3 j' hgt)

theorem vm_find_device_none_iff (vm : vm_t) (cmp : device → Int) :
    vm_find_device vm cmp = none ↔ ∀ l, l < vm.ndevices → cmp (vm.devices l) ≠ 0 := by
  constructor
  · intro h l hl
    exact vm_find_device_loop_none vm cmp _ _ h l (Nat.zero_le _) (by omega)
  · intro h
    cases hr : vm_find_device vm cmp with
    | none => rfl
    | some j =>
      obtain ⟨_, g2, g3, _⟩ := vm_find_device_loop_some vm cmp _ _ _ hr
      exact absurd g3 (h j (by omega))

theorem cmp_ipa_eq_zero_iff (d : device) (addr : Nat) :
    cmp_ipa d addr = 0 ↔ dev_paddr_in_range addr d = true := by
  unfold cmp_ipa
  by_cases h : dev_paddr_in_range addr d = true <;> simp [h]

theorem cmp_id_eq_zero_iff (d : device) (id : Nat) : cmp_id d id = 0 ↔ d.devid = id := by
  unfold cmp_id
  by_cases h : d.devid = id <;> simp [h]

theorem vm_find_device_by_ipa_first_match_aux (vm : vm_t) (addr : Nat) (j : Nat) :
    vm_find_device_by_ipa vm addr = some j ↔
      (j < vm.ndevices ∧ dev_paddr_in_range addr (vm.devices j) = true ∧
        ∀ l, l < j → dev_paddr_in_range addr (vm.devices l) = false) := by
  unfold vm_find_device_by_ipa
  rw [vm_find_device_some_iff]
  simp only [cmp_ipa_eq_zero_iff, ne_eq, Bool.not_eq_true]

theorem vm_find_device_by_ipa_none_aux (vm : vm_t) (addr : Nat) :
    vm_find_device_by_ipa vm addr = none ↔
      ∀ l, l < vm.ndevices → dev_paddr_in_range addr (vm.devices l) = false := by
  unfold vm_find_device_by_ipa
  rw [vm_find_device_none_iff]
  simp only [cmp_ipa_eq_zero_iff, ne_eq, Bool.not_eq_true]

/-! ## Device registry: theorems -/

/-- C1: `vm_find_device_by_ipa` returns the lowest-index slot among the first `ndevices`
whose half-open range contains `addr`; it returns `NULL` exactly when no installed device
contains `addr`; and when the installed ranges are pairwise non-overlapping it returns exactly
the one installed device whose range contains `addr`. -/
theorem vm_find_device_by_ipa_first_match (vm : vm_t) (addr : Nat) :
    (∀ j, vm_find_device_by_ipa vm addr = some j ↔
        (j < vm.ndevices ∧ dev_paddr_in_range addr (vm.devices j) = true ∧
          ∀ l, l < j → dev_paddr_in_range addr (vm.devices l) = false)) ∧
    (vm_find_device_by_ipa vm addr = none ↔
        ∀ l, l < vm.ndevices → dev_paddr_in_range addr (vm.devices l) = false) ∧
    ((∀ a i j, i < vm.ndevices → j < vm.ndevices → i ≠ j →
        ¬ (dev_paddr_in_range a (vm.devices i) = true ∧
           dev_paddr_in_range a (vm.devices j) = true)) →
      ∀ j, j < vm.ndevices → dev_paddr_in_range addr (vm.devices j) = true →
        vm_find_device_by_ipa vm addr = some j) := by
  have key : ∀ j, vm_find_device_by_ipa vm addr = some j ↔
        (j < vm.ndevices ∧ dev_paddr_in_range addr (vm.devices j) = true ∧
          ∀ l, l < j → dev_paddr_in_range addr (vm.devices l) = false) := by
    intro j
    unfold vm_find_device_by_ipa
    rw [vm_find_device_some_iff]
    simp only [cmp_ipa_eq_zero_iff, ne_eq, Bool.not_eq_true]
  refine ⟨key, ?_, ?_⟩
  · unfold vm_find_device_by_ipa
    rw [vm_find_device_none_iff]
    simp only [cmp_ipa_eq_zero_iff, ne_eq, Bool.not_eq_true]
  · intro hdisj j hj hin
    rw [key]
    refine ⟨hj, hin, ?_⟩
    intro l hl
    by_contra hne
    have hl' : dev_paddr_in_range addr (vm.devices l) = true := by simpa using hne
    exact hdisj addr l j (by omega) hj (by omega) ⟨hl', hin⟩

/-- C1, concrete instance: in the sample VM the address `0x3010` is found in slot 1 and
`0x2000` (one past the end of slot 0) is found nowhere. -/
theorem vm_find_device_by_ipa_first_match_witness :
    vm_find_device_by_ipa sampleVm 0x3010 = some 1 ∧
    vm_find_device_by_ipa sampleVm 0x2000 = none := by
  have h := vm_find_device_by_ipa_first_match sampleVm 0x3010
  have h2 := vm_find_device_by_ipa_first_match sampleVm 0x2000
  refine ⟨(h.1 1).2 ⟨by decide, by decide, ?_⟩, h2.2.1.2 ?_⟩
  · intro l hl
    have : l = 0 := by omega
    subst this; decide
  · intro l hl
    have hl2 : l < 2 := hl
    have : l = 0 ∨ l = 1 := by omega
    rcases this with rfl | rfl <;> decide

/-- C7: when the device count equals `MAX_DEVICES_PER_VM`, `vm_add_device` returns -1 and the
VM, hence the count and every stored device entry, is exactly as before. -/
theorem vm_add_device_full (MAX_DEVICES_PER_VM : Nat) (vm : vm_t) (d : device)
    (hfull : vm.ndevices = MAX_DEVICES_PER_VM) :
    (vm_add_device MAX_DEVICES_PER_VM vm d).1 = -1 ∧
    (vm_add_device MAX_DEVICES_PER_VM vm d).2 = vm ∧
    (vm_add_device MAX_DEVICES_PER_VM vm d).2.ndevices = vm.ndevices ∧
    ∀ i, (vm_add_device MAX_DEVICES_PER_VM vm d).2.devices i = vm.devices i := by
  have h : vm_add_device MAX_DEVICES_PER_VM vm d = (-1, vm) := by
    unfold vm_add_device
    rw [if_neg (by omega)]
  rw [h]
  exact ⟨rfl, rfl, rfl, fun _ => rfl⟩

/-- C7, concrete instance: the sample VM with capacity 2 is full; adding a third device fails
and changes nothing. -/
theorem vm_add_device_full_witness :
    (vm_add_device 2 sampleVm (mkDev 3 0x5000 0x10 300)).1 = -1 ∧
    (vm_add_device 2 sampleVm (mkDev 3 0x5000 0x10 300)).2 = sampleVm ∧
    (vm_add_device 2 sampleVm (mkDev 3 0x5000 0x10 300)).2.ndevices = sampleVm.ndevices ∧
    ∀ i, (vm_add_device 2 sampleVm (mkDev 3 0x5000 0x10 300)).2.devices i
      = sampleVm.devices i :=
  vm_add_device_full 2 sampleVm (mkDev 3 0x5000 0x10 300) rfl

/-- C8: with `ndevices = n < MAX_DEVICES_PER_VM`, `vm_add_device` returns 0, the new count is
`n + 1`, slot `n` holds a copy of `d`, and every other slot (in particular `0..n-1`) and every
other field of the VM is unchanged. -/
theorem vm_add_device_ok (MAX_DEVICES_PER_VM : Nat) (vm : vm_t) (d : device) (n : Nat)
    (hn : vm.ndevices = n) (hlt : n < MAX_DEVICES_PER_VM) :
    (vm_add_device MAX_DEVICES_PER_VM vm d).1 = 0 ∧
    (vm_add_device MAX_DEVICES_PER_VM vm d).2.ndevices = n + 1 ∧
    (vm_add_device MAX_DEVICES_PER_VM vm d).2.devices n = d ∧
    (∀ i, i < n → (vm_add_device MAX_DEVICES_PER_VM vm d).2.devices i = vm.devices i) ∧
    (∀ i, i ≠ n → (vm_add_device MAX_DEVICES_PER_VM vm d).2.devices i = vm.devices i) ∧
    (vm_add_device MAX_DEVICES_PER_VM vm d).2.rb_hooks = vm.rb_hooks ∧
    (vm_add_device MAX_DEVICES_PER_VM vm d).2.nhooks = vm.nhooks ∧
    (vm_add_device MAX_DEVICES_PER_VM vm d).2.fault = vm.fault := by
  subst hn
  have h : vm_add_device MAX_DEVICES_PER_VM vm d =
      (0, { vm with devices := Function.update vm.devices vm.ndevices d,
                    ndevices := vm.ndevices + 1 }) := by
    unfold vm_add_device
    rw [if_pos hlt]
  rw [h]
  refine ⟨rfl, rfl, by simp, ?_, ?_, rfl, rfl, rfl⟩
  · intro i hi
    simp [Function.update, Nat.ne_of_lt hi]
  · intro i hi
    simp [Function.update, hi]

/-- C8, concrete instance: the sample VM (2 devices) with capacity 4 accepts a third. -/
theorem vm_add_device_ok_witness :
    (vm_add_device 4 sampleVm (mkDev 3 0x5000 0x10 300)).1 = 0 ∧
    (vm_add_device 4 sampleVm (mkDev 3 0x5000 0x10 300)).2.ndevices = 3 ∧
    (vm_add_device 4 sampleVm (mkDev 3 0x5000 0x10 300)).2.devices 2 = mkDev 3 0x5000 0x10 300 ∧
    (∀ i, i < 2 → (vm_add_device 4 sampleVm (mkDev 3 0x5000 0x10 300)).2.devices i
      = sampleVm.devices i) :=
  have h := vm_add_device_ok 4 sampleVm (mkDev 3 0x5000 0x10 300) 2 rfl (by decide)
  ⟨h.1, h.2.1, h.2.2.1, h.2.2.2.1⟩

/-- C10: on a VM whose hook count is within capacity, `vm_register_reboot_callback` returns -1
exactly when the hook is `NULL` or `nhooks` equals `MAX_REBOOT_HOOKS_PER_VM`, and then the VM
(hook list and `nhooks` included) is unchanged; otherwise it returns 0, stores the
`(hook, token)` pair at index `nhooks`, increments `nhooks` by one and leaves every other hook
slot and the device registry unchanged. -/
theorem vm_register_reboot_callback_spec (MAX_REBOOT_HOOKS_PER_VM : Nat) (vm : vm_t)
    (hook token : Nat) (hcap : vm.nhooks ≤ MAX_REBOOT_HOOKS_PER_VM) :
    ((vm_register_reboot_callback MAX_REBOOT_HOOKS_PER_VM vm hook token).1 = -1 ↔
        (hook = NULL ∨ vm.nhooks = MAX_REBOOT_HOOKS_PER_VM)) ∧
    ((hook = NULL ∨ vm.nhooks = MAX_REBOOT_HOOKS_PER_VM) →
        vm_register_reboot_callback MAX_REBOOT_HOOKS_PER_VM vm hook token = (-1, vm)) ∧
    (¬ (hook = NULL ∨ vm.nhooks = MAX_REBOOT_HOOKS_PER_VM) →
        (vm_register_reboot_callback MAX_REBOOT_HOOKS_PER_VM vm hook token).1 = 0 ∧
        (vm_register_reboot_callback MAX_REBOOT_HOOKS_PER_VM vm hook token).2.rb_hooks vm.nhooks
          = { fn := hook, token := token } ∧
        (vm_register_reboot_callback MAX_REBOOT_HOOKS_PER_VM vm hook token).2.nhooks
          = vm.nhooks + 1 ∧
        (∀ i, i ≠ vm.nhooks →
          (vm_register_reboot_callback MAX_REBOOT_HOOKS_PER_VM vm hook token).2.rb_hooks i
            = vm.rb_hooks i) ∧
        (vm_register_reboot_callback MAX_REBOOT_HOOKS_PER_VM vm hook token).2.devices
          = vm.devices ∧
        (vm_register_reboot_callback MAX_REBOOT_HOOKS_PER_VM vm hook token).2.ndevices
          = vm.ndevices) := by
  have hfail : (hook = NULL ∨ vm.nhooks = MAX_REBOOT_HOOKS_PER_VM) →
      vm_register_reboot_callback MAX_REBOOT_HOOKS_PER_VM vm hook token = (-1, vm) := by
    intro h
    unfold vm_register_reboot_callback
    by_cases h0 : hook = NULL
    · rw [if_pos h0]
    · rw [if_neg h0]
      have h1 : vm.nhooks = MAX_REBOOT_HOOKS_PER_VM := h.resolve_left h0
      simp only
      rw [if_neg (by omega)]
  have hok : ¬ (hook = NULL ∨ vm.nhooks = MAX_REBOOT_HOOKS_PER_VM) →
      vm_register_reboot_callback MAX_REBOOT_HOOKS_PER_VM vm hook token =
        (0, { vm with rb_hooks := Function.update vm.rb_hooks vm.nhooks
                                    { fn := hook, token := token },
                      nhooks := vm.nhooks + 1 }) := by
    intro h
    have h0 : ¬ hook = NULL := fun c => h (Or.inl c)
    have h1 : vm.nhooks < MAX_REBOOT_HOOKS_PER_VM := by
      have : vm.nhooks ≠ MAX_REBOOT_HOOKS_PER_VM := fun c => h (Or.inr c)
      omega
    unfold vm_register_reboot_callback
    rw [if_neg h0]
    simp only
    rw [if_pos h1]
  refine ⟨?_, hfail, ?_⟩
  · constructor
    · intro hr
      by_contra hc
      rw [hok hc] at hr
      simp at hr
    · intro h
      rw [hfail h]
  · intro h
    rw [hok h]
    refine ⟨rfl, by simp, rfl, ?_, rfl, rfl⟩
    intro i hi
    simp [Function.update, hi]

/-- C10, concrete instance: registering hook 7 with token 9 on the sample VM (no hooks yet,
capacity 1) succeeds and stores the pair at index 0. -/
theorem vm_register_reboot_callback_spec_witness :
    (vm_register_reboot_callback 1 sampleVm 7 9).1 = 0 ∧
    (vm_register_reboot_callback 1 sampleVm 7 9).2.rb_hooks 0 = { fn := 7, token := 9 } ∧
    (vm_register_reboot_callback 1 sampleVm 7 9).2.nhooks = 1 :=
  have h := (vm_register_reboot_callback_spec 1 sampleVm 7 9 (by decide)).2.2 (by decide)
  ⟨h.1, h.2.1, h.2.2.1⟩

/-! ## Page-fault routing: theorems -/

/-- C5: when the fault address lies in the range of an installed device, `handle_page_fault`
calls the handler of the first such device `d` (the one `vm_find_device_by_ipa` finds) on the
incoming world (VM and fault context), returns that handler's result unchanged, leaves the
world as the handler left it, and the only call it makes is that single handler call. -/
theorem handle_page_fault_routes_to_device (env : Env) (cfg : Config) (w : World) (j : Nat)
    (hj : j < w.vm.ndevices)
    (hin : dev_paddr_in_range (fault_get_address w.vm.fault) (w.vm.devices j) = true) :
    ∃ d, vm_find_device_by_ipa w.vm (fault_get_address w.vm.fault) = some d ∧
      d ≤ j ∧ dev_paddr_in_range (fault_get_address w.vm.fault) (w.vm.devices d) = true ∧
      (∀ l, l < d → dev_paddr_in_range (fault_get_address w.vm.fault) (w.vm.devices l) = false) ∧
      handle_page_fault env cfg w
        = ((env.dev_handle_page_fault (w.vm.devices d).handle_page_fault d w).1,
           { (env.dev_handle_page_fault (w.vm.devices d).handle_page_fault d w).2 with
             trace := w.trace ++ [Event.dev_handle_page_fault (w.vm.devices d).handle_page_fault d
               (env.dev_handle_page_fault (w.vm.devices d).handle_page_fault d w).1] }) := by
  have hc1 := vm_find_device_by_ipa_first_match_aux w.vm (fault_get_address w.vm.fault)
  cases hr : vm_find_device_by_ipa w.vm (fault_get_address w.vm.fault) with
  | none =>
    have := (vm_find_device_by_ipa_none_aux w.vm _).1 hr j hj
    rw [hin] at this
    exact absurd this (by simp)
  | some d =>
    obtain ⟨hd1, hd2, hd3⟩ := (hc1 d).1 hr
    refine ⟨d, rfl, ?_, hd2, hd3, ?_⟩
    · by_contra hlt
      have := hd3 j (by omega)
      rw [hin] at this
      exact absurd this (by simp)
    · unfold handle_page_fault
      rw [hr]
      rfl

/-- C5, concrete instance: in the sample world the fault at `0x3010` belongs to slot 1, whose
handler (at code address 200) is the one call made; its result 201 is returned. -/
theorem handle_page_fault_routes_to_device_witness :
    (∃ d, vm_find_device_by_ipa sampleWorld.vm (fault_get_address sampleWorld.vm.fault) = some d ∧
      d ≤ 1 ∧
      dev_paddr_in_range (fault_get_address sampleWorld.vm.fault) (sampleWorld.vm.devices d) = true ∧
      (∀ l, l < d →
        dev_paddr_in_range (fault_get_address sampleWorld.vm.fault) (sampleWorld.vm.devices l)
          = false) ∧
      handle_page_fault sampleEnv sampleCfg sampleWorld
        = ((sampleEnv.dev_handle_page_fault (sampleWorld.vm.devices d).handle_page_fault d
              sampleWorld).1,
           { (sampleEnv.dev_handle_page_fault (sampleWorld.vm.devices d).handle_page_fault d
              sampleWorld).2 with
             trace := sampleWorld.trace ++
               [Event.dev_handle_page_fault (sampleWorld.vm.devices d).handle_page_fault d
                 (sampleEnv.dev_handle_page_fault (sampleWorld.vm.devices d).handle_page_fault d
                   sampleWorld).1] })) ∧
    (handle_page_fault sampleEnv sampleCfg sampleWorld).1 = 201 ∧
    (handle_page_fault sampleEnv sampleCfg sampleWorld).2.trace
      = [Event.dev_handle_page_fault 200 1 201] :=
  ⟨handle_page_fault_routes_to_device sampleEnv sampleCfg sampleWorld 1 (by decide) (by decide),
   by decide, by decide⟩

/-- C6: with on-demand device installation disabled and a fault address contained in no
installed device's range, `handle_page_fault` returns -1 after exactly the calls `print_fault`
and `abandon_fault` (no device handler, no mapping, no restart, no reply), the fault is marked
handled, the guest's registers and the device registry (count and every entry) are unchanged;
and `vm_event`, given a VM-fault message for such an address, returns -1 after exactly the
calls `new_fault`, `print_fault`, `abandon_fault`, with the device registry unchanged. -/
theorem handle_page_fault_unowned_abandons (env : Env) (abi : Abi) (cfg : Config) (w : World)
    (hoff : cfg.CONFIG_ONDEMAND_DEVICE_INSTALL = false) :
    ((∀ l, l < w.vm.ndevices →
        dev_paddr_in_range (fault_get_address w.vm.fault) (w.vm.devices l) = false) →
      (handle_page_fault env cfg w).1 = -1 ∧
      (handle_page_fault env cfg w).2.trace
        = w.trace ++ [Event.print_fault, Event.abandon_fault] ∧
      fault_handled (handle_page_fault env cfg w).2.vm.fault = true ∧
      (handle_page_fault env cfg w).2.tcb_regs = w.tcb_regs ∧
      (handle_page_fault env cfg w).2.vm.ndevices = w.vm.ndevices ∧
      (handle_page_fault env cfg w).2.vm.devices = w.vm.devices) ∧
    ((∀ l, l < w.vm.ndevices →
        dev_paddr_in_range (w.mr seL4_VMFault_Addr) (w.vm.devices l) = false) →
      ∀ fuel tag, tag.label = abi.seL4_Fault_VMFault →
        ∃ w1, vm_event env abi cfg (fuel + 1) w tag = Result.ret (-1, w1) ∧
          w1.trace = w.trace ++ [Event.new_fault, Event.print_fault, Event.abandon_fault] ∧
          fault_handled w1.vm.fault = true ∧
          w1.tcb_regs = w.tcb_regs ∧
          w1.vm.ndevices = w.vm.ndevices ∧
          w1.vm.devices = w.vm.devices) := by
  have key : ∀ w0 : World, (∀ l, l < w0.vm.ndevices →
        dev_paddr_in_range (fault_get_address w0.vm.fault) (w0.vm.devices l) = false) →
      handle_page_fault env cfg w0 = (-1, abandon_fault (print_fault w0)) := by
    intro w0 h
    have hnone := (vm_find_device_by_ipa_none_aux w0.vm (fault_get_address w0.vm.fault)).2 h
    unfold handle_page_fault
    rw [hnone]
    simp [hoff]
  constructor
  · intro h
    rw [key w h]
    refine ⟨rfl, ?_, rfl, rfl, rfl, rfl⟩
    simp [abandon_fault, print_fault, World.emit]
  · intro h fuel tag htag
    have hk := key (new_fault w).2 h
    refine ⟨abandon_fault (print_fault (new_fault w).2), ?_, ?_, rfl, rfl, rfl, rfl⟩
    · have hloop : vm_event_page_fault_loop env cfg (fuel + 1) (new_fault w).2
          = Result.ret (-1, abandon_fault (print_fault (new_fault w).2)) := by
        unfold vm_event_page_fault_loop
        simp only [hk]
        rfl
      have h0 : (new_fault w).1 = 0 := rfl
      unfold vm_event
      simp only [htag, if_true]
      unfold cassert
      rw [hloop]
      simp [h0]
    · simp [abandon_fault, print_fault, World.emit, new_fault]

/-- C6, concrete instance: a fault message for `0x2000`, which no sample device contains:
`handle_page_fault` and `vm_event` both give -1 and the fault is abandoned. -/
theorem handle_page_fault_unowned_abandons_witness :
    ((handle_page_fault sampleEnv sampleCfg unownedWorld).1 = -1 ∧
     (handle_page_fault sampleEnv sampleCfg unownedWorld).2.trace
       = [Event.print_fault, Event.abandon_fault]) ∧
    (∃ w1, vm_event sampleEnv sampleAbi sampleCfg 1 unownedWorld { label := 5, length := 4 }
        = Result.ret (-1, w1) ∧
      w1.trace = [Event.new_fault, Event.print_fault, Event.abandon_fault]) := by
  have hno : ∀ l, l < unownedWorld.vm.ndevices →
      dev_paddr_in_range 0x2000 (unownedWorld.vm.devices l) = false := by
    intro l hl
    have hl2 : l < 2 := hl
    have : l = 0 ∨ l = 1 := by omega
    rcases this with rfl | rfl <;> decide
  have h := handle_page_fault_unowned_abandons sampleEnv sampleAbi sampleCfg unownedWorld rfl
  obtain ⟨w1, h1, h2, _⟩ := h.2 hno 0 { label := 5, length := 4 } rfl
  exact ⟨⟨(h.1 hno).1, (h.1 hno).2.1⟩, ⟨w1, h1, h2⟩⟩

/-! ## Reboot hooks: theorems -/

theorem hook_state_registry (env : Env) (hk : HooksKeepRegistry env) (w : World) :
    ∀ j, (hook_state env w j).vm.rb_hooks = w.vm.rb_hooks ∧
      (hook_state env w j).vm.nhooks = w.vm.nhooks := by
  intro j
  induction j with
  | zero => exact ⟨rfl, rfl⟩
  | succ j ih =>
    have h := hk (w.vm.rb_hooks j).fn (w.vm.rb_hooks j).token (hook_state env w j)
    constructor
    · show (env.reboot_hook _ _ (hook_state env w j)).2.vm.rb_hooks = _
      rw [h.1, ih.1]
    · show (env.reboot_hook _ _ (hook_state env w j)).2.vm.nhooks = _
      rw [h.2, ih.2]

theorem hook_state_trace (env : Env) (w : World) :
    ∀ k, (hook_state env w k).trace = w.trace ++ hook_calls env w k := by
  intro k
  induction k with
  | zero => simp [hook_state, hook_calls]
  | succ k ih =>
    show (hook_state env w k).trace ++ [_] = _
    rw [ih]
    simp [hook_calls, List.range_succ, hook_ret]

theorem vm_process_reboot_callbacks_loop_spec (env : Env) (hk : HooksKeepRegistry env)
    (w : World) :
    ∀ fuel i, i ≤ w.vm.nhooks → w.vm.nhooks - i < fuel →
      ∃ k, i ≤ k ∧ k ≤ w.vm.nhooks ∧
        (∀ j, i ≤ j → j < k → (w.vm.rb_hooks j).fn ≠ NULL ∧ hook_ret env w j = 0) ∧
        ((k = w.vm.nhooks ∧
            vm_process_reboot_callbacks_loop env fuel i (hook_state env w i)
              = Result.ret (0, hook_state env w k)) ∨
         (k < w.vm.nhooks ∧ (w.vm.rb_hooks k).fn = NULL ∧
            vm_process_reboot_callbacks_loop env fuel i (hook_state env w i)
              = Result.ret (-1, hook_state env w k)) ∨
         (k < w.vm.nhooks ∧ (w.vm.rb_hooks k).fn ≠ NULL ∧ hook_ret env w k ≠ 0 ∧
            vm_process_reboot_callbacks_loop env fuel i (hook_state env w i)
              = Result.ret (hook_ret env w k, hook_state env w (k + 1)))) := by
  intro fuel
  induction fuel with
  | zero => intro i _ h; omega
  | succ fuel ih =>
    intro i hi hfuel
    have hreg := hook_state_registry env hk w i
    unfold vm_process_reboot_callbacks_loop
    rw [hreg.2]
    by_cases hlt : i < w.vm.nhooks
    · rw [if_pos hlt]
      simp only [hreg.1]
      by_cases hnull : (w.vm.rb_hooks i).fn = NULL
      · rw [if_pos hnull]
        exact ⟨i, le_refl _, hi, fun j h1 h2 => by omega, Or.inr (Or.inl ⟨hlt, hnull, rfl⟩)⟩
      · rw [if_neg hnull]
        by_cases hret : hook_ret env w i = 0
        · have hr1 : ((hook_state env w i).call
              (env.reboot_hook (w.vm.rb_hooks i).fn (w.vm.rb_hooks i).token)
              (Event.reboot_hook (w.vm.rb_hooks i).fn (w.vm.rb_hooks i).token)).1 = 0 := hret
          rw [if_neg (by rw [hr1]; simp)]
          obtain ⟨k, hk1, hk2, hk3, hk4⟩ := ih (i + 1) (by omega) (by omega)
          refine ⟨k, by omega, hk2, ?_, hk4⟩
          intro j hj1 hj2
          by_cases hji : j = i
          · subst hji; exact ⟨hnull, hret⟩
          · exact hk3 j (by omega) hj2
        · have hr1 : ((hook_state env w i).call
              (env.reboot_hook (w.vm.rb_hooks i).fn (w.vm.rb_hooks i).token)
              (Event.reboot_hook (w.vm.rb_hooks i).fn (w.vm.rb_hooks i).token)).1
                = hook_ret env w i := rfl
          rw [if_pos (by rw [hr1]; exact hret)]
          exact ⟨i, le_refl _, hi, fun j h1 h2 => by omega,
            Or.inr (Or.inr ⟨hlt, hnull, hret, rfl⟩)⟩
    · rw [if_neg hlt]
      have : i = w.vm.nhooks := by omega
      exact ⟨i, le_refl _, hi, fun j h1 h2 => by omega, Or.inl ⟨this, rfl⟩⟩

theorem hook_calls_length (env : Env) (w : World) (n : Nat) :
    (hook_calls env w n).length = n := by
  simp [hook_calls]

/-- C9: provided the callbacks leave the hook registry alone, `vm_process_reboot_callbacks`
returns (with any fuel above `nhooks`) after calling the hooks `0..k-1` in registration order,
each with its own token, where every called hook before the last returned 0 and one of three
things holds: all `nhooks` hooks were called and returned 0 and the result is 0; or hook `k`
is `NULL`, it is not called, and the result is -1; or hook `k` was the last one called, it
returned a non-zero code and the result is exactly that code.  No later hook is called, and
the result is 0 exactly when every registered hook was called and returned 0. -/
theorem vm_process_reboot_callbacks_spec (env : Env) (w : World) (fuel : Nat)
    (hk : HooksKeepRegistry env) (hfuel : w.vm.nhooks < fuel) :
    ∃ k r w1, vm_process_reboot_callbacks env fuel w = Result.ret (r, w1) ∧
      k ≤ w.vm.nhooks ∧
      (∀ j, j < k → (w.vm.rb_hooks j).fn ≠ NULL ∧ hook_ret env w j = 0) ∧
      ((k = w.vm.nhooks ∧ r = 0 ∧ w1.trace = w.trace ++ hook_calls env w k) ∨
       (k < w.vm.nhooks ∧ (w.vm.rb_hooks k).fn = NULL ∧ r = -1 ∧
          w1.trace = w.trace ++ hook_calls env w k) ∨
       (k < w.vm.nhooks ∧ (w.vm.rb_hooks k).fn ≠ NULL ∧ hook_ret env w k ≠ 0 ∧
          r = hook_ret env w k ∧ w1.trace = w.trace ++ hook_calls env w (k + 1))) ∧
      (r = 0 ↔ (w1.trace = w.trace ++ hook_calls env w w.vm.nhooks ∧
                 ∀ j, j < w.vm.nhooks → hook_ret env w j = 0)) := by
  obtain ⟨k, _, hk2, hk3, hk4⟩ :=
    vm_process_reboot_callbacks_loop_spec env hk w fuel 0 (Nat.zero_le _) (by omega)
  have hk3' : ∀ j, j < k → (w.vm.rb_hooks j).fn ≠ NULL ∧ hook_ret env w j = 0 :=
    fun j hj => hk3 j (Nat.zero_le _) hj
  have hlen : ∀ n, w.trace ++ hook_calls env w n = w.trace ++ hook_calls env w w.vm.nhooks →
      n = w.vm.nhooks := by
    intro n h
    have := congrArg List.length (List.append_cancel_left h)
    simpa [hook_calls_length] using this
  rcases hk4 with ⟨h1, h2⟩ | ⟨h1, h2, h3⟩ | ⟨h1, h2, h3, h4⟩
  · refine ⟨k, 0, hook_state env w k, h2, hk2, hk3', Or.inl ⟨h1, rfl, hook_state_trace env w k⟩, ?_⟩
    constructor
    · intro _
      refine ⟨?_, ?_⟩
      · rw [hook_state_trace, h1]
      · intro j hj
        exact (hk3' j (by omega)).2
    · intro _; rfl
  · refine ⟨k, -1, hook_state env w k, h3, hk2, hk3',
      Or.inr (Or.inl ⟨h1, h2, rfl, hook_state_trace env w k⟩), ?_⟩
    constructor
    · intro h; simp at h
    · rintro ⟨ht, _⟩
      rw [hook_state_trace] at ht
      have := hlen k ht
      omega
  · refine ⟨k, hook_ret env w k, hook_state env w (k + 1), h4, hk2, hk3',
      Or.inr (Or.inr ⟨h1, h2, h3, rfl, hook_state_trace env w (k + 1)⟩), ?_⟩
    constructor
    · intro h; exact absurd h h3
    · rintro ⟨_, hall⟩
      exact absurd (hall k h1) h3

/-- C9, concrete instance: with hooks `[A(ok), B(returns 7), C(ok)]` the run calls `A` with
token 10, then `B` with token 20, never `C`, and the result is 7. -/
theorem vm_process_reboot_callbacks_spec_witness :
    (∃ k r w1, vm_process_reboot_callbacks sampleEnv 4 hooksWorld = Result.ret (r, w1) ∧
      k ≤ hooksWorld.vm.nhooks ∧
      (∀ j, j < k → (hooksWorld.vm.rb_hooks j).fn ≠ NULL ∧ hook_ret sampleEnv hooksWorld j = 0) ∧
      ((k = hooksWorld.vm.nhooks ∧ r = 0 ∧
          w1.trace = hooksWorld.trace ++ hook_calls sampleEnv hooksWorld k) ∨
       (k < hooksWorld.vm.nhooks ∧ (hooksWorld.vm.rb_hooks k).fn = NULL ∧ r = -1 ∧
          w1.trace = hooksWorld.trace ++ hook_calls sampleEnv hooksWorld k) ∨
       (k < hooksWorld.vm.nhooks ∧ (hooksWorld.vm.rb_hooks k).fn ≠ NULL ∧
          hook_ret sampleEnv hooksWorld k ≠ 0 ∧
          r = hook_ret sampleEnv hooksWorld k ∧
          w1.trace = hooksWorld.trace ++ hook_calls sampleEnv hooksWorld (k + 1))) ∧
      (r = 0 ↔ (w1.trace = hooksWorld.trace ++ hook_calls sampleEnv hooksWorld hooksWorld.vm.nhooks ∧
                 ∀ j, j < hooksWorld.vm.nhooks → hook_ret sampleEnv hooksWorld j = 0))) ∧
    (∃ w1, vm_process_reboot_callbacks sampleEnv 4 hooksWorld = Result.ret (7, w1) ∧
      w1.trace = [Event.reboot_hook 1 10 0, Event.reboot_hook 2 20 7]) :=
  ⟨vm_process_reboot_callbacks_spec sampleEnv hooksWorld 4 (fun _ _ _ => ⟨rfl, rfl⟩)
      (by decide),
   ⟨_, rfl, by decide⟩⟩

/-! ## Machine words: lemmas -/

theorem BIT_eq (n : Nat) : BIT n = 2 ^ n := by
  unfold BIT; exact Nat.one_shiftLeft n

theorem and_MASK (x n : Nat) : x &&& MASK n = x % 2 ^ n := by
  unfold MASK; rw [BIT_eq]; exact Nat.and_pow_two_sub_one_eq_mod x n

theorem and_wnot_MASK (wb x n : Nat) (hn : n ≤ wb) (hx : x < 2 ^ wb) :
    x &&& wnot wb (MASK n) = x - x % 2 ^ n := by
  have hm : MASK n % 2 ^ wb = 2 ^ n - 1 := by
    unfold MASK; rw [BIT_eq]
    apply Nat.mod_eq_of_lt
    have : 2 ^ n ≤ 2 ^ wb := Nat.pow_le_pow_right (by decide) hn
    have : 0 < 2 ^ n := Nat.pow_pos (by decide)
    omega
  have hr : x - x % 2 ^ n = 2 ^ n * (x / 2 ^ n) := by
    have := Nat.div_add_mod x (2 ^ n)
    omega
  unfold wnot
  rw [hm, hr]
  apply Nat.eq_of_testBit_eq
  intro i
  rw [Nat.testBit_and, Nat.testBit_xor, Nat.testBit_two_pow_sub_one, Nat.testBit_two_pow_sub_one,
    Nat.testBit_mul_pow_two, ← Nat.shiftRight_eq_div_pow, Nat.testBit_shiftRight]
  by_cases h1 : i < n
  · have : i < wb := by omega
    simp [h1, this]
  · by_cases h2 : i < wb
    · have : n + (i - n) = i := by omega
      simp [h1, h2, this]
      omega
    · have hxi : x.testBit i = false := by
        apply Nat.testBit_lt_two_pow
        exact lt_of_lt_of_le hx (Nat.pow_le_pow_right (by decide) (by omega))
      have : n + (i - n) = i := by omega
      simp [h1, h2, hxi, this]

theorem wadd_val (wb a b : Nat) (_ha : a < 2 ^ wb) (hb : b < 2 ^ wb) :
    wadd wb a b = if a + b < 2 ^ wb then a + b else a + b - 2 ^ wb := by
  unfold wadd
  generalize 2 ^ wb = W at *
  split
  · exact Nat.mod_eq_of_lt (by assumption)
  · rw [Nat.mod_eq_sub_mod (by omega)]
    exact Nat.mod_eq_of_lt (by omega)

theorem wsub_val (wb a b : Nat) (ha : a < 2 ^ wb) (hb : b < 2 ^ wb) :
    wsub wb a b = if b ≤ a then a - b else a + 2 ^ wb - b := by
  unfold wsub
  rw [Nat.mod_eq_of_lt ha, Nat.mod_eq_of_lt hb]
  generalize 2 ^ wb = W at *
  split
  · rw [Nat.mod_eq_sub_mod (by omega)]
    rw [Nat.mod_eq_of_lt (by omega)]
    omega
  · rw [Nat.mod_eq_of_lt (by omega)]
    omega

theorem word_size_facts (wb : Nat) (h : 21 < wb) :
    2 ^ wb % 2097152 = 0 ∧ 4194304 ≤ 2 ^ wb := by
  obtain ⟨k, rfl⟩ : ∃ k, wb = 22 + k := ⟨wb - 22, by omega⟩
  rw [pow_add]
  have : 0 < 2 ^ k := Nat.pow_pos (by decide)
  constructor
  · norm_num
    omega
  · norm_num
    omega


/-! ## Address translation: lemmas -/

theorem page_same (wb : Nat) (getAddress : Nat → seL4_ARM_Page_GetAddress_t) (vm : vm_t)
    (hwf : MappingWellFormed wb getAddress vm) (a a1 : Nat) (ha : a < 2 ^ wb)
    (hm : vm.vm_vspace.get_cap a ≠ seL4_CapNull)
    (h1 : a - a % 2 ^ vm.vm_vspace.get_cookie a ≤ a1)
    (h2 : a1 < a - a % 2 ^ vm.vm_vspace.get_cookie a + 2 ^ vm.vm_vspace.get_cookie a) :
    vm.vm_vspace.get_cap a1 = vm.vm_vspace.get_cap a ∧
      vm.vm_vspace.get_cookie a1 = vm.vm_vspace.get_cookie a := by
  apply hwf.same_page a a1 ha hm
  rcases hwf.cookie_bits a ha hm with hb | hb
  · rw [hb] at h1 h2 ⊢
    norm_num at h1 h2 ⊢
    omega
  · rw [hb] at h1 h2 ⊢
    norm_num at h1 h2 ⊢
    omega

theorem boundary_aligned (wb : Nat) (getAddress : Nat → seL4_ARM_Page_GetAddress_t) (vm : vm_t)
    (hwf : MappingWellFormed wb getAddress vm) (ipa : Nat) (hpos : 0 < ipa) (hipa : ipa < 2 ^ wb)
    (hprev : vm.vm_vspace.get_cap (ipa - 1) ≠ seL4_CapNull)
    (hend : ipa % 2 ^ vm.vm_vspace.get_cookie (ipa - 1) = 0)
    (hm : vm.vm_vspace.get_cap ipa ≠ seL4_CapNull) :
    ipa % 2 ^ vm.vm_vspace.get_cookie ipa = 0 := by
  have hb1 := hwf.cookie_bits (ipa - 1) (by omega) hprev
  have hb2 := hwf.cookie_bits ipa hipa hm
  rcases hb2 with hb2 | hb2
  · rcases hb1 with hb1 | hb1
    · rw [hb1] at hend; rw [hb2]; exact hend
    · rw [hb1] at hend; rw [hb2]
      norm_num at hend ⊢
      omega
  · rcases hb1 with hb1 | hb1
    · by_contra hne
      have hsame := hwf.same_page ipa (ipa - 1) hipa hm (by
        rw [hb2] at hne ⊢
        norm_num at hne ⊢
        omega)
      rw [hsame.2, hb2] at hb1
      omega
    · rw [hb1] at hend; rw [hb2]; exact hend


theorem vm_ipa_to_pa_loop_unmapped (cfg : Config) (getAddress : Nat → seL4_ARM_Page_GetAddress_t)
    (vm : vm_t) (base size fuel ipa pa_base : Nat)
    (hwf : MappingWellFormed cfg.seL4_WordBits getAddress vm) (hipa : ipa < 2 ^ cfg.seL4_WordBits)
    (hbad : ¬ page_mapped getAddress vm ipa) :
    vm_ipa_to_pa_loop cfg getAddress vm base size (fuel + 1) ipa pa_base = Result.ret 0 := by
  simp only [vm_ipa_to_pa_loop]
  by_cases hc : vm.vm_vspace.get_cap ipa = seL4_CapNull
  · rw [if_pos hc]
  · rw [if_neg hc]
    have hb := hwf.cookie_bits ipa hipa hc
    rw [if_neg (by simp [hb])]
    have he : (getAddress (vm.vm_vspace.get_cap ipa)).error ≠ 0 := fun h => hbad ⟨hc, h⟩
    rw [if_pos he]

theorem page_arith (W B a P : Nat) (hB : B = 4096 ∨ B = 2097152) (hW1 : W % 2097152 = 0)
    (hW2 : 4194304 ≤ W) (ha : a < W) (hP : P % B = 0) (hP2 : P < W) :
    a % B < B ∧ a % B ≤ a ∧ P + a % B < W ∧ P + B ≤ W ∧ a - a % B + B ≤ W ∧ B < W ∧ 4096 ≤ B ∧
      (a = 0 → B < W) ∧ (a - a % B) % B = 0 := by
  rcases hB with rfl | rfl <;> omega

theorem vm_ipa_to_pa_loop_first (cfg : Config) (getAddress : Nat → seL4_ARM_Page_GetAddress_t)
    (vm : vm_t) (base size fuel pa : Nat)
    (hwf : MappingWellFormed cfg.seL4_WordBits getAddress vm) (hwb : 21 < cfg.seL4_WordBits)
    (hrange : base + size ≤ 2 ^ cfg.seL4_WordBits) (hbase : base < 2 ^ cfg.seL4_WordBits)
    (hm : page_mapped getAddress vm base) :
    (base - base % 2 ^ vm.vm_vspace.get_cookie base + 2 ^ vm.vm_vspace.get_cookie base
        < base + size →
      vm_ipa_to_pa_loop cfg getAddress vm base size (fuel + 1) base pa =
        vm_ipa_to_pa_loop cfg getAddress vm base size fuel
          (base - base % 2 ^ vm.vm_vspace.get_cookie base + 2 ^ vm.vm_vspace.get_cookie base)
          (host_pa getAddress vm base)) ∧
    (base + size ≤
        base - base % 2 ^ vm.vm_vspace.get_cookie base + 2 ^ vm.vm_vspace.get_cookie base →
      vm_ipa_to_pa_loop cfg getAddress vm base size (fuel + 1) base pa =
        Result.ret (host_pa getAddress vm base)) := by
  obtain ⟨hW1, hW2⟩ := word_size_facts _ hwb
  have hb := hwf.cookie_bits base hbase hm.1
  have hfr := hwf.frame base hbase hm.1 hm.2
  have hble : vm.vm_vspace.get_cookie base ≤ cfg.seL4_WordBits := by
    rcases hb with h | h <;> omega
  simp only [vm_ipa_to_pa_loop]
  rw [if_neg hm.1, if_neg (by simp [hb]), if_neg (by simp [hm.2]), if_pos trivial]
  rw [and_MASK, and_wnot_MASK _ _ _ hble hbase, BIT_eq]
  unfold host_pa
  generalize hP : (getAddress (vm.vm_vspace.get_cap base)).paddr = P at *
  generalize hB : vm.vm_vspace.get_cookie base = b at *
  generalize hWW : 2 ^ cfg.seL4_WordBits = W at *
  have hpow : 2 ^ b = 4096 ∨ 2 ^ b = 2097152 := by
    rcases hb with h | h <;> simp [h]
  generalize 2 ^ b = B at *
  obtain ⟨q1, q2, q3, q4, q5, q6, q7, q8, _⟩ := page_arith W B base P hpow hW1 hW2 hbase hfr.1 hfr.2
  generalize base % B = g at *
  have e1 : wadd cfg.seL4_WordBits P g = P + g := by
    rw [wadd_val _ _ _ (by rw [hWW]; exact hfr.2) (by rw [hWW]; omega), hWW]
    rw [if_pos (by omega)]
  have e2 : wadd cfg.seL4_WordBits (base - g) B =
      if base - g + B < W then base - g + B else 0 := by
    rw [wadd_val _ _ _ (by rw [hWW]; omega) (by rw [hWW]; omega), hWW]
    split
    · rfl
    · omega
  rw [e1, e2]
  constructor
  · intro hlt
    have hE : base - g + B < W := by omega
    rw [if_pos hE]
    rw [wsub_val _ _ _ (by rw [hWW]; omega) (by rw [hWW]; omega), hWW]
    have h1 : base ≤ base - g + B := by omega
    rw [if_pos h1]
    have h2 : base - g + B - base < size := by omega
    rw [if_pos h2]
  · intro hge
    by_cases hE : base - g + B < W
    · rw [if_pos hE]
      rw [wsub_val _ _ _ (by rw [hWW]; omega) (by rw [hWW]; omega), hWW]
      have h1 : base ≤ base - g + B := by omega
      rw [if_pos h1]
      have h2 : ¬ base - g + B - base < size := by omega
      rw [if_neg h2]
    · rw [if_neg hE]
      rw [wsub_val _ _ _ (by rw [hWW]; omega) (by rw [hWW]; omega), hWW]
      have hbpos : 0 < base := by
        by_contra h0
        have : base = 0 := by omega
        have := q8 this
        omega
      have h1 : ¬ base ≤ 0 := by omega
      rw [if_neg h1]
      have h2 : ¬ 0 + W - base < size := by omega
      rw [if_neg h2]


theorem vm_ipa_to_pa_loop_next (cfg : Config) (getAddress : Nat → seL4_ARM_Page_GetAddress_t)
    (vm : vm_t) (base size fuel ipa pa_base : Nat)
    (hwf : MappingWellFormed cfg.seL4_WordBits getAddress vm) (hwb : 21 < cfg.seL4_WordBits)
    (hrange : base + size ≤ 2 ^ cfg.seL4_WordBits) (hlt : base < ipa)
    (hipa : ipa < 2 ^ cfg.seL4_WordBits) (hpa : pa_base < 2 ^ cfg.seL4_WordBits)
    (hm : page_mapped getAddress vm ipa) (hal : ipa % 2 ^ vm.vm_vspace.get_cookie ipa = 0) :
    (host_pa getAddress vm ipa ≠ wadd cfg.seL4_WordBits pa_base (ipa - base) →
      vm_ipa_to_pa_loop cfg getAddress vm base size (fuel + 1) ipa pa_base = Result.ret 0) ∧
    (host_pa getAddress vm ipa = wadd cfg.seL4_WordBits pa_base (ipa - base) →
      (ipa + 2 ^ vm.vm_vspace.get_cookie ipa < base + size →
        vm_ipa_to_pa_loop cfg getAddress vm base size (fuel + 1) ipa pa_base =
          vm_ipa_to_pa_loop cfg getAddress vm base size fuel
            (ipa + 2 ^ vm.vm_vspace.get_cookie ipa) pa_base) ∧
      (base + size ≤ ipa + 2 ^ vm.vm_vspace.get_cookie ipa →
        (0 < base ∨ ipa + 2 ^ vm.vm_vspace.get_cookie ipa < 2 ^ cfg.seL4_WordBits) →
        vm_ipa_to_pa_loop cfg getAddress vm base size (fuel + 1) ipa pa_base =
          Result.ret pa_base)) := by
  obtain ⟨hW1, hW2⟩ := word_size_facts _ hwb
  have hb := hwf.cookie_bits ipa hipa hm.1
  have hfr := hwf.frame ipa hipa hm.1 hm.2
  have hne : ¬ ipa = base := by omega
  simp only [vm_ipa_to_pa_loop]
  rw [if_neg hm.1, if_neg (by simp [hb]), if_neg (by simp [hm.2]), if_neg hne]
  rw [BIT_eq]
  unfold host_pa
  rw [hal]
  generalize hP : (getAddress (vm.vm_vspace.get_cap ipa)).paddr = P at *
  generalize hB : vm.vm_vspace.get_cookie ipa = b at *
  have hpow : 2 ^ b = 4096 ∨ 2 ^ b = 2097152 := by
    rcases hb with h | h <;> simp [h]
  generalize 2 ^ b = B at *
  have e0 : wsub cfg.seL4_WordBits ipa base = ipa - base := by
    rw [wsub_val _ _ _ hipa (by omega), if_pos (by omega)]
  have e1 : wsub cfg.seL4_WordBits P pa_base =
      if pa_base ≤ P then P - pa_base else P + 2 ^ cfg.seL4_WordBits - pa_base :=
    wsub_val _ _ _ hfr.2 hpa
  have e2 : wadd cfg.seL4_WordBits pa_base (ipa - base) =
      if pa_base + (ipa - base) < 2 ^ cfg.seL4_WordBits then pa_base + (ipa - base)
      else pa_base + (ipa - base) - 2 ^ cfg.seL4_WordBits :=
    wadd_val _ _ _ hpa (by omega)
  generalize hWW : 2 ^ cfg.seL4_WordBits = W at *
  obtain ⟨_, _, _, q4, q5, q6, q7, _, _⟩ := page_arith W B ipa P hpow hW1 hW2 hipa hfr.1 hfr.2
  rw [hal] at q5
  have e3 : wadd cfg.seL4_WordBits ipa B = if ipa + B < W then ipa + B else 0 := by
    rw [wadd_val _ _ _ (by rw [hWW]; omega) (by rw [hWW]; omega), hWW]
    split
    · rfl
    · omega
  rw [e0, e3]
  constructor
  · intro hbad
    have hc : wsub cfg.seL4_WordBits P pa_base ≠ ipa - base := by
      rw [e1]; rw [e2] at hbad
      split <;> split at hbad <;> omega
    rw [if_pos hc]
  · intro hgood
    have hc : ¬ wsub cfg.seL4_WordBits P pa_base ≠ ipa - base := by
      rw [e1]; rw [e2] at hgood
      split <;> split at hgood <;> omega
    rw [if_neg hc]
    constructor
    · intro hcont
      have hE : ipa + B < W := by omega
      rw [if_pos hE]
      rw [wsub_val _ _ _ (by rw [hWW]; omega) (by rw [hWW]; omega), hWW]
      have h1 : base ≤ ipa + B := by omega
      rw [if_pos h1]
      have h2 : ipa + B - base < size := by omega
      rw [if_pos h2]
    · intro hstop hnw
      by_cases hE : ipa + B < W
      · rw [if_pos hE]
        rw [wsub_val _ _ _ (by rw [hWW]; omega) (by rw [hWW]; omega), hWW]
        have h1 : base ≤ ipa + B := by omega
        rw [if_pos h1]
        have h2 : ¬ ipa + B - base < size := by omega
        rw [if_neg h2]
      · rw [if_neg hE]
        rw [wsub_val _ _ _ (by rw [hWW]; omega) (by rw [hWW]; omega), hWW]
        have hbpos : 0 < base := by omega
        have h1 : ¬ base ≤ 0 := by omega
        rw [if_neg h1]
        have h2 : ¬ 0 + W - base < size := by omega
        rw [if_neg h2]


theorem host_pa_lt (wb : Nat) (getAddress : Nat → seL4_ARM_Page_GetAddress_t) (vm : vm_t)
    (hwf : MappingWellFormed wb getAddress vm) (hwb : 21 < wb) (x : Nat) (hx : x < 2 ^ wb)
    (hm : page_mapped getAddress vm x) : host_pa getAddress vm x < 2 ^ wb := by
  obtain ⟨hW1, hW2⟩ := word_size_facts _ hwb
  have hb := hwf.cookie_bits x hx hm.1
  have hfr := hwf.frame x hx hm.1 hm.2
  unfold host_pa
  have hpow : 2 ^ vm.vm_vspace.get_cookie x = 4096 ∨ 2 ^ vm.vm_vspace.get_cookie x = 2097152 := by
    rcases hb with h | h <;> simp [h]
  exact (page_arith _ _ x _ hpow hW1 hW2 hx hfr.1 hfr.2).2.2.1

theorem page_host_pa (wb : Nat) (getAddress : Nat → seL4_ARM_Page_GetAddress_t) (vm : vm_t)
    (hwf : MappingWellFormed wb getAddress vm) (x a : Nat) (hx : x < 2 ^ wb)
    (hm : page_mapped getAddress vm x)
    (h1 : x - x % 2 ^ vm.vm_vspace.get_cookie x ≤ a)
    (h2 : a < x - x % 2 ^ vm.vm_vspace.get_cookie x + 2 ^ vm.vm_vspace.get_cookie x) :
    page_mapped getAddress vm a ∧ host_pa getAddress vm a + x = host_pa getAddress vm x + a ∧
      vm.vm_vspace.get_cookie a = vm.vm_vspace.get_cookie x := by
  obtain ⟨hs1, hs2⟩ := page_same wb getAddress vm hwf x a hx hm.1 h1 h2
  have hb := hwf.cookie_bits x hx hm.1
  refine ⟨⟨by rw [hs1]; exact hm.1, by rw [hs1]; exact hm.2⟩, ?_, hs2⟩
  unfold host_pa
  rw [hs1, hs2]
  rcases hb with hb | hb
  · rw [hb] at h1 h2 ⊢
    norm_num at h1 h2 ⊢
    omega
  · rw [hb] at h1 h2 ⊢
    norm_num at h1 h2 ⊢
    omega

/-- After the first iteration: if some address from `ipa` on is unmapped or off the line
through `pa_base`, the loop returns 0. -/
theorem vm_ipa_to_pa_loop_bad (cfg : Config) (getAddress : Nat → seL4_ARM_Page_GetAddress_t)
    (vm : vm_t) (base size pa_base : Nat)
    (hwf : MappingWellFormed cfg.seL4_WordBits getAddress vm) (hwb : 21 < cfg.seL4_WordBits)
    (hrange : base + size ≤ 2 ^ cfg.seL4_WordBits) (hpa : pa_base < 2 ^ cfg.seL4_WordBits) :
    ∀ fuel ipa, base < ipa → ipa < base + size →
      vm.vm_vspace.get_cap (ipa - 1) ≠ seL4_CapNull →
      ipa % 2 ^ vm.vm_vspace.get_cookie (ipa - 1) = 0 →
      base + size - ipa ≤ fuel * 4096 →
      (∃ a, ipa ≤ a ∧ a < base + size ∧
        (¬ page_mapped getAddress vm a ∨
          host_pa getAddress vm a ≠ wadd cfg.seL4_WordBits pa_base (a - base))) →
      vm_ipa_to_pa_loop cfg getAddress vm base size fuel ipa pa_base = Result.ret 0 := by
  obtain ⟨hW1, hW2⟩ := word_size_facts _ hwb
  intro fuel
  induction fuel with
  | zero => intro ipa h1 h2 _ _ h5 _; omega
  | succ fuel ih =>
    intro ipa h1 h2 hprev hend hfuel hbad
    have hipa : ipa < 2 ^ cfg.seL4_WordBits := by omega
    by_cases hm : page_mapped getAddress vm ipa
    · have hal := boundary_aligned _ getAddress vm hwf ipa (by omega) hipa hprev hend hm.1
      have hstep := vm_ipa_to_pa_loop_next cfg getAddress vm base size fuel ipa pa_base hwf hwb
        hrange h1 hipa hpa hm hal
      by_cases hgood : host_pa getAddress vm ipa = wadd cfg.seL4_WordBits pa_base (ipa - base)
      · have hb := hwf.cookie_bits ipa hipa hm.1
        have hfr := hwf.frame ipa hipa hm.1 hm.2
        have hpow : 2 ^ vm.vm_vspace.get_cookie ipa = 4096 ∨
            2 ^ vm.vm_vspace.get_cookie ipa = 2097152 := by
          rcases hb with h | h <;> simp [h]
        obtain ⟨q1, q2, q3, q4, q5, q6, q7, _, _⟩ :=
          page_arith _ _ ipa _ hpow hW1 hW2 hipa hfr.1 hfr.2
        have hpage : ∀ a, ipa ≤ a → a < ipa + 2 ^ vm.vm_vspace.get_cookie ipa →
            page_mapped getAddress vm a ∧
              host_pa getAddress vm a = wadd cfg.seL4_WordBits pa_base (a - base) := by
          intro a ha1 ha2
          obtain ⟨p1, p2, _⟩ := page_host_pa _ getAddress vm hwf ipa a hipa hm
            (by rw [hal]; omega) (by rw [hal]; omega)
          refine ⟨p1, ?_⟩
          have hh : host_pa getAddress vm ipa = (getAddress (vm.vm_vspace.get_cap ipa)).paddr := by
            unfold host_pa; rw [hal]; rfl
          rw [wadd_val _ _ _ hpa (by omega)] at hgood ⊢
          rw [hh] at p2 hgood
          split <;> split at hgood <;> omega
        obtain ⟨a, ha1, ha2, ha3⟩ := hbad
        have hane : ipa + 2 ^ vm.vm_vspace.get_cookie ipa ≤ a := by
          by_contra hlt
          have := hpage a ha1 (by omega)
          rcases ha3 with h | h
          · exact h this.1
          · exact h this.2
        rw [(hstep.2 hgood).1 (by omega)]
        apply ih
        · omega
        · omega
        · have := (hpage (ipa + 2 ^ vm.vm_vspace.get_cookie ipa - 1) (by omega) (by omega)).1
          exact this.1
        · obtain ⟨_, _, p3⟩ := page_host_pa _ getAddress vm hwf ipa
            (ipa + 2 ^ vm.vm_vspace.get_cookie ipa - 1) hipa hm
            (by rw [hal]; omega) (by rw [hal]; omega)
          rw [p3, Nat.add_mod_right]
          exact hal
        · omega
        · exact ⟨a, hane, ha2, ha3⟩
      · exact hstep.1 hgood
    · exact vm_ipa_to_pa_loop_unmapped cfg getAddress vm base size fuel ipa pa_base hwf hipa hm


/-- After the first iteration: if every address from `ipa` on is mapped and lies on the line
through `host_pa base`, which is not 0, the loop returns `host_pa base`. -/
theorem vm_ipa_to_pa_loop_good (cfg : Config) (getAddress : Nat → seL4_ARM_Page_GetAddress_t)
    (vm : vm_t) (base size : Nat)
    (hwf : MappingWellFormed cfg.seL4_WordBits getAddress vm) (hwb : 21 < cfg.seL4_WordBits)
    (hrange : base + size ≤ 2 ^ cfg.seL4_WordBits)
    (hpa : host_pa getAddress vm base < 2 ^ cfg.seL4_WordBits)
    (hnz : host_pa getAddress vm base ≠ 0) :
    ∀ fuel ipa, base < ipa → ipa < base + size →
      vm.vm_vspace.get_cap (ipa - 1) ≠ seL4_CapNull →
      ipa % 2 ^ vm.vm_vspace.get_cookie (ipa - 1) = 0 →
      base + size - ipa ≤ fuel * 4096 →
      (∀ a, ipa ≤ a → a < base + size →
        page_mapped getAddress vm a ∧
          host_pa getAddress vm a = host_pa getAddress vm base + (a - base)) →
      vm_ipa_to_pa_loop cfg getAddress vm base size fuel ipa (host_pa getAddress vm base)
        = Result.ret (host_pa getAddress vm base) := by
  obtain ⟨hW1, hW2⟩ := word_size_facts _ hwb
  intro fuel
  induction fuel with
  | zero => intro ipa h1 h2 _ _ h5 _; omega
  | succ fuel ih =>
    intro ipa h1 h2 hprev hend hfuel hall
    have hipa : ipa < 2 ^ cfg.seL4_WordBits := by omega
    obtain ⟨hm, hline⟩ := hall ipa (le_refl _) h2
    have hal := boundary_aligned _ getAddress vm hwf ipa (by omega) hipa hprev hend hm.1
    have hstep := vm_ipa_to_pa_loop_next cfg getAddress vm base size fuel ipa
      (host_pa getAddress vm base) hwf hwb hrange h1 hipa hpa hm hal
    have hlt := host_pa_lt _ getAddress vm hwf hwb ipa hipa hm
    have hgood : host_pa getAddress vm ipa =
        wadd cfg.seL4_WordBits (host_pa getAddress vm base) (ipa - base) := by
      rw [wadd_val _ _ _ hpa (by omega), if_pos (by omega)]
      exact hline
    have hb := hwf.cookie_bits ipa hipa hm.1
    have hfr := hwf.frame ipa hipa hm.1 hm.2
    have hpow : 2 ^ vm.vm_vspace.get_cookie ipa = 4096 ∨
        2 ^ vm.vm_vspace.get_cookie ipa = 2097152 := by
      rcases hb with h | h <;> simp [h]
    obtain ⟨q1, q2, q3, q4, q5, q6, q7, _, _⟩ :=
      page_arith _ _ ipa _ hpow hW1 hW2 hipa hfr.1 hfr.2
    have hh : host_pa getAddress vm ipa = (getAddress (vm.vm_vspace.get_cap ipa)).paddr := by
      unfold host_pa; rw [hal]; rfl
    by_cases hcont : ipa + 2 ^ vm.vm_vspace.get_cookie ipa < base + size
    · rw [(hstep.2 hgood).1 hcont]
      obtain ⟨p1, _, p3⟩ := page_host_pa _ getAddress vm hwf ipa
        (ipa + 2 ^ vm.vm_vspace.get_cookie ipa - 1) hipa hm
        (by rw [hal]; omega) (by rw [hal]; omega)
      apply ih
      · omega
      · omega
      · exact p1.1
      · rw [p3, Nat.add_mod_right]
        exact hal
      · omega
      · intro a ha1 ha2
        exact hall a (by omega) ha2
    · apply (hstep.2 hgood).2 (by omega)
      rw [hh] at hline
      clear hstep hgood hh hall ih hpow hfr hb hal hlt
      generalize (getAddress (vm.vm_vspace.get_cap ipa)).paddr = P at *
      generalize host_pa getAddress vm base = H at *
      generalize 2 ^ vm.vm_vspace.get_cookie ipa = B at *
      generalize 2 ^ cfg.seL4_WordBits = W at *
      omega

/-- Any address of the requested range that is unmapped, or whose host-physical address is
off the line through the host-physical address of the base, makes `vm_ipa_to_pa` return 0. -/
theorem vm_ipa_to_pa_bad (cfg : Config) (getAddress : Nat → seL4_ARM_Page_GetAddress_t)
    (vm : vm_t) (base size fuel : Nat)
    (hwf : MappingWellFormed cfg.seL4_WordBits getAddress vm) (hwb : 21 < cfg.seL4_WordBits)
    (hrange : base + size ≤ 2 ^ cfg.seL4_WordBits) (hfuel : size / 4096 + 2 ≤ fuel)
    (hbad : ∃ a, base ≤ a ∧ a < base + size ∧
      (¬ page_mapped getAddress vm a ∨
        host_pa getAddress vm a ≠
          wadd cfg.seL4_WordBits (host_pa getAddress vm base) (a - base))) :
    vm_ipa_to_pa cfg getAddress vm base size fuel = Result.ret 0 := by
  obtain ⟨hW1, hW2⟩ := word_size_facts _ hwb
  obtain ⟨f, rfl⟩ : ∃ f, fuel = f + 1 := ⟨fuel - 1, by omega⟩
  obtain ⟨a, ha1, ha2, ha3⟩ := hbad
  have hbase : base < 2 ^ cfg.seL4_WordBits := by omega
  unfold vm_ipa_to_pa
  by_cases hm : page_mapped getAddress vm base
  · have hfirst := vm_ipa_to_pa_loop_first cfg getAddress vm base size f 0 hwf hwb hrange hbase hm
    have hpa := host_pa_lt _ getAddress vm hwf hwb base hbase hm
    have hb := hwf.cookie_bits base hbase hm.1
    have hfr := hwf.frame base hbase hm.1 hm.2
    have hpow : 2 ^ vm.vm_vspace.get_cookie base = 4096 ∨
        2 ^ vm.vm_vspace.get_cookie base = 2097152 := by
      rcases hb with h | h <;> simp [h]
    obtain ⟨q1, q2, q3, q4, q5, q6, q7, _, q9⟩ :=
      page_arith _ _ base _ hpow hW1 hW2 hbase hfr.1 hfr.2
    have hpage : ∀ x, base ≤ x →
        x < base - base % 2 ^ vm.vm_vspace.get_cookie base + 2 ^ vm.vm_vspace.get_cookie base →
        page_mapped getAddress vm x ∧
          host_pa getAddress vm x =
            wadd cfg.seL4_WordBits (host_pa getAddress vm base) (x - base) := by
      intro x hx1 hx2
      obtain ⟨p1, p2, _⟩ := page_host_pa _ getAddress vm hwf base x hbase hm (by omega) hx2
      refine ⟨p1, ?_⟩
      have := host_pa_lt _ getAddress vm hwf hwb x (by omega) p1
      rw [wadd_val _ _ _ hpa (by omega), if_pos (by omega)]
      omega
    have hane : base - base % 2 ^ vm.vm_vspace.get_cookie base
        + 2 ^ vm.vm_vspace.get_cookie base ≤ a := by
      by_contra hlt
      have := hpage a ha1 (by omega)
      rcases ha3 with h | h
      · exact h this.1
      · exact h this.2
    rw [hfirst.1 (by omega)]
    obtain ⟨p1, _, p3⟩ := page_host_pa _ getAddress vm hwf base
      (base - base % 2 ^ vm.vm_vspace.get_cookie base + 2 ^ vm.vm_vspace.get_cookie base - 1)
      hbase hm (by omega) (by omega)
    apply vm_ipa_to_pa_loop_bad cfg getAddress vm base size _ hwf hwb hrange hpa
    · omega
    · omega
    · exact p1.1
    · rw [p3, Nat.add_mod_right]
      exact q9
    · omega
    · exact ⟨a, hane, ha2, ha3⟩
  · exact vm_ipa_to_pa_loop_unmapped cfg getAddress vm base size f base 0 hwf hbase hm


theorem sampleVspace_wf (g : Nat → seL4_ARM_Page_GetAddress_t)
    (hg : ∀ c, 16 ≤ c → c ≤ 18 → (g c).paddr % 4096 = 0 ∧ (g c).paddr < 2 ^ 32) :
    MappingWellFormed 32 g mapVm := by
  constructor
  · intro a _ _
    exact Or.inl rfl
  · intro a a1 _ hm h
    have hm' : (if 0x10000 ≤ a ∧ a < 0x13000 then a / 4096 else 0) ≠ 0 := hm
    have h' : a1 / 2 ^ 12 = a / 2 ^ 12 := h
    refine ⟨?_, rfl⟩
    show (if 0x10000 ≤ a1 ∧ a1 < 0x13000 then a1 / 4096 else 0)
      = (if 0x10000 ≤ a ∧ a < 0x13000 then a / 4096 else 0)
    norm_num at h'
    split at hm'
    · rename_i hr
      rw [if_pos hr, if_pos (by omega)]
      exact h'
    · exact absurd rfl hm'
  · intro a _ hm _
    have hm' : (if 0x10000 ≤ a ∧ a < 0x13000 then a / 4096 else 0) ≠ 0 := hm
    split at hm'
    · rename_i hr
      have e : mapVm.vm_vspace.get_cap a = a / 4096 := if_pos hr
      rw [e]
      have := hg (a / 4096) (by omega) (by omega)
      show (g (a / 4096)).paddr % 2 ^ 12 = 0 ∧ (g (a / 4096)).paddr < 2 ^ 32
      norm_num at this ⊢
      exact this
    · exact absurd rfl hm'

theorem sampleVspace_mapped (g : Nat → seL4_ARM_Page_GetAddress_t) (hg : ∀ c, (g c).error = 0)
    (a : Nat) (h1 : 0x10000 ≤ a) (h2 : a < 0x13000) : page_mapped g mapVm a := by
  refine ⟨?_, hg _⟩
  show (if 0x10000 ≤ a ∧ a < 0x13000 then a / 4096 else 0) ≠ 0
  rw [if_pos ⟨h1, h2⟩]
  omega

theorem sampleVspace_host_pa (g : Nat → seL4_ARM_Page_GetAddress_t)
    (a : Nat) (h1 : 0x10000 ≤ a) (h2 : a < 0x13000) :
    host_pa g mapVm a = (g (a / 4096)).paddr + a % 4096 := by
  show (g (if 0x10000 ≤ a ∧ a < 0x13000 then a / 4096 else 0)).paddr + a % 2 ^ 12 = _
  rw [if_pos ⟨h1, h2⟩]
  norm_num

/-! ## Address translation: theorems -/

/-- C3: on a well-formed mapping table and for a range inside the address space, if some
address of `[guest_base, guest_base+size)` lies in a page without a mapping (null capability)
or whose address query fails, `vm_ipa_to_pa` returns 0, with any fuel of at least
`size / 4096 + 2` iterations. -/
theorem vm_ipa_to_pa_unmapped_returns_zero (cfg : Config)
    (getAddress : Nat → seL4_ARM_Page_GetAddress_t) (vm : vm_t) (guest_base size fuel : Nat)
    (hwf : MappingWellFormed cfg.seL4_WordBits getAddress vm) (hwb : 21 < cfg.seL4_WordBits)
    (hrange : guest_base + size ≤ 2 ^ cfg.seL4_WordBits) (hfuel : size / 4096 + 2 ≤ fuel)
    (hbad : ∃ a, guest_base ≤ a ∧ a < guest_base + size ∧
      (vm.vm_vspace.get_cap a = seL4_CapNull ∨
        (getAddress (vm.vm_vspace.get_cap a)).error ≠ 0)) :
    vm_ipa_to_pa cfg getAddress vm guest_base size fuel = Result.ret 0 := by
  obtain ⟨a, h1, h2, h3⟩ := hbad
  apply vm_ipa_to_pa_bad cfg getAddress vm guest_base size fuel hwf hwb hrange hfuel
  refine ⟨a, h1, h2, Or.inl ?_⟩
  rintro ⟨m1, m2⟩
  rcases h3 with h | h
  · exact m1 h
  · exact h m2

/-- C3, concrete instance: three pages are mapped from `0x10000`; a four-page request runs
into the unmapped page at `0x13000` and yields 0. -/
theorem vm_ipa_to_pa_unmapped_returns_zero_witness :
    vm_ipa_to_pa sampleCfg contiguousFrames mapVm 0x10000 0x4000 6 = Result.ret 0 :=
  vm_ipa_to_pa_unmapped_returns_zero sampleCfg contiguousFrames mapVm 0x10000 0x4000 6
    (sampleVspace_wf contiguousFrames (by
      intro c h1 h2
      show (0x80000000 + (c - 16) * 4096) % 4096 = 0 ∧ 0x80000000 + (c - 16) * 4096 < 2 ^ 32
      norm_num
      omega))
    (by decide) (by decide) (by decide)
    ⟨0x13000, by decide, by decide, Or.inl (by decide)⟩

/-- C4: on a well-formed mapping table, for a range inside the address space all of whose
pages are mapped, if two addresses of the range (such as the starts of two adjacent pages, or
the base and a later page) lie at a host-physical distance different from their
guest-physical distance, `vm_ipa_to_pa` returns 0, with any fuel of at least
`size / 4096 + 2` iterations. -/
theorem vm_ipa_to_pa_noncontiguous_returns_zero (cfg : Config)
    (getAddress : Nat → seL4_ARM_Page_GetAddress_t) (vm : vm_t) (guest_base size fuel : Nat)
    (hwf : MappingWellFormed cfg.seL4_WordBits getAddress vm) (hwb : 21 < cfg.seL4_WordBits)
    (hrange : guest_base + size ≤ 2 ^ cfg.seL4_WordBits) (hfuel : size / 4096 + 2 ≤ fuel)
    (hmapped : ∀ a, guest_base ≤ a → a < guest_base + size → page_mapped getAddress vm a)
    (hbreak : ∃ a a1, guest_base ≤ a ∧ a ≤ a1 ∧ a1 < guest_base + size ∧
      wsub cfg.seL4_WordBits (host_pa getAddress vm a1) (host_pa getAddress vm a)
        ≠ wsub cfg.seL4_WordBits a1 a) :
    vm_ipa_to_pa cfg getAddress vm guest_base size fuel = Result.ret 0 := by
  obtain ⟨a, a1, h1, h2, h3, h4⟩ := hbreak
  have hbase : guest_base < 2 ^ cfg.seL4_WordBits := by omega
  have hmb := hmapped guest_base (le_refl _) (by omega)
  have hpb := host_pa_lt _ getAddress vm hwf hwb guest_base hbase hmb
  have hpa := host_pa_lt _ getAddress vm hwf hwb a (by omega) (hmapped a h1 (by omega))
  have hpa1 := host_pa_lt _ getAddress vm hwf hwb a1 (by omega) (hmapped a1 (by omega) h3)
  apply vm_ipa_to_pa_bad cfg getAddress vm guest_base size fuel hwf hwb hrange hfuel
  by_cases hg : host_pa getAddress vm a =
      wadd cfg.seL4_WordBits (host_pa getAddress vm guest_base) (a - guest_base)
  · refine ⟨a1, by omega, h3, Or.inr ?_⟩
    intro hg1
    apply h4
    rw [wsub_val _ _ _ hpa1 hpa, wsub_val _ _ _ (by omega) (by omega), if_pos h2]
    rw [wadd_val _ _ _ hpb (by omega)] at hg hg1
    generalize host_pa getAddress vm a = X at *
    generalize host_pa getAddress vm a1 = X1 at *
    generalize host_pa getAddress vm guest_base = H at *
    generalize 2 ^ cfg.seL4_WordBits = W at *
    split at hg <;> split at hg1 <;> split <;> omega
  · exact ⟨a, h1, by omega, Or.inr hg⟩

/-- C4, concrete instance: the three pages are mapped, but the frame of the second page is
at `0x90000000` instead of `0x80001000`; a two-page request yields 0. -/
theorem vm_ipa_to_pa_noncontiguous_returns_zero_witness :
    vm_ipa_to_pa sampleCfg brokenFrames mapVm 0x10000 0x2000 4 = Result.ret 0 :=
  vm_ipa_to_pa_noncontiguous_returns_zero sampleCfg brokenFrames mapVm 0x10000 0x2000 4
    (sampleVspace_wf brokenFrames (by
      intro c h1 h2
      show (if c = 17 then 0x90000000 else 0x80000000 + (c - 16) * 4096) % 4096 = 0 ∧
        (if c = 17 then 0x90000000 else 0x80000000 + (c - 16) * 4096) < 2 ^ 32
      norm_num
      split <;> omega))
    (by decide) (by decide) (by decide)
    (fun a h1 h2 => sampleVspace_mapped brokenFrames (fun _ => rfl) a h1 (by omega))
    ⟨0x10000, 0x11000, by decide, by decide, by decide, by decide⟩


/-- C2 (amended): on a well-formed mapping table, for a non-empty range inside the address
space every address of which is mapped and lies at host-physical address
`host_pa guest_base + (addr - guest_base)`, and whose base does not translate to host-physical
address 0, `vm_ipa_to_pa` returns (with any fuel of at least `size / 4096 + 2` iterations) a
non-zero `host_base`, the host-physical address of `guest_base`, and for every page-aligned
`addr` of the range the single-page query `vm_ipa_to_pa(vm, addr, 4096)` returns
`host_base + (addr - guest_base)`. -/
theorem vm_ipa_to_pa_contiguous (cfg : Config)
    (getAddress : Nat → seL4_ARM_Page_GetAddress_t) (vm : vm_t) (guest_base size fuel : Nat)
    (hwf : MappingWellFormed cfg.seL4_WordBits getAddress vm) (hwb : 21 < cfg.seL4_WordBits)
    (hrange : guest_base + size ≤ 2 ^ cfg.seL4_WordBits) (hsize : 0 < size)
    (hfuel : size / 4096 + 2 ≤ fuel)
    (hall : ∀ a, guest_base ≤ a → a < guest_base + size →
      page_mapped getAddress vm a ∧
        host_pa getAddress vm a = host_pa getAddress vm guest_base + (a - guest_base))
    (hnz : host_pa getAddress vm guest_base ≠ 0) :
    ∃ host_base, vm_ipa_to_pa cfg getAddress vm guest_base size fuel = Result.ret host_base ∧
      host_base ≠ 0 ∧ host_base = host_pa getAddress vm guest_base ∧
      ∀ addr, guest_base ≤ addr → addr < guest_base + size → addr % 4096 = 0 →
        ∀ fuel1, 0 < fuel1 →
          vm_ipa_to_pa cfg getAddress vm addr 4096 fuel1
            = Result.ret (wadd cfg.seL4_WordBits host_base (addr - guest_base)) := by
  obtain ⟨hW1, hW2⟩ := word_size_facts _ hwb
  have hbase : guest_base < 2 ^ cfg.seL4_WordBits := by omega
  obtain ⟨hm, _⟩ := hall guest_base (le_refl _) (by omega)
  have hpa := host_pa_lt _ getAddress vm hwf hwb guest_base hbase hm
  refine ⟨host_pa getAddress vm guest_base, ?_, hnz, rfl, ?_⟩
  · obtain ⟨f, rfl⟩ : ∃ f, fuel = f + 1 := ⟨fuel - 1, by omega⟩
    have hfirst := vm_ipa_to_pa_loop_first cfg getAddress vm guest_base size f 0 hwf hwb hrange
      hbase hm
    have hb := hwf.cookie_bits guest_base hbase hm.1
    have hfr := hwf.frame guest_base hbase hm.1 hm.2
    have hpow : 2 ^ vm.vm_vspace.get_cookie guest_base = 4096 ∨
        2 ^ vm.vm_vspace.get_cookie guest_base = 2097152 := by
      rcases hb with h | h <;> simp [h]
    obtain ⟨q1, q2, q3, q4, q5, q6, q7, _, q9⟩ :=
      page_arith _ _ guest_base _ hpow hW1 hW2 hbase hfr.1 hfr.2
    unfold vm_ipa_to_pa
    by_cases hcont : guest_base - guest_base % 2 ^ vm.vm_vspace.get_cookie guest_base
        + 2 ^ vm.vm_vspace.get_cookie guest_base < guest_base + size
    · rw [hfirst.1 hcont]
      obtain ⟨p1, _, p3⟩ := page_host_pa _ getAddress vm hwf guest_base
        (guest_base - guest_base % 2 ^ vm.vm_vspace.get_cookie guest_base
          + 2 ^ vm.vm_vspace.get_cookie guest_base - 1)
        hbase hm (by omega) (by omega)
      apply vm_ipa_to_pa_loop_good cfg getAddress vm guest_base size hwf hwb hrange hpa hnz
      · omega
      · omega
      · exact p1.1
      · rw [p3, Nat.add_mod_right]
        exact q9
      · omega
      · intro a ha1 ha2
        exact hall a (by omega) ha2
    · exact hfirst.2 (by omega)
  · intro addr ha1 ha2 ha3 fuel1 hf1
    obtain ⟨f, rfl⟩ : ∃ f, fuel1 = f + 1 := ⟨fuel1 - 1, by omega⟩
    obtain ⟨hma, hline⟩ := hall addr ha1 ha2
    have haddr : addr < 2 ^ cfg.seL4_WordBits := by omega
    have hlt := host_pa_lt _ getAddress vm hwf hwb addr haddr hma
    have hfirst := vm_ipa_to_pa_loop_first cfg getAddress vm addr 4096 f 0 hwf hwb (by omega)
      haddr hma
    have hb := hwf.cookie_bits addr haddr hma.1
    have hstop : addr + 4096 ≤ addr - addr % 2 ^ vm.vm_vspace.get_cookie addr
        + 2 ^ vm.vm_vspace.get_cookie addr := by
      rcases hb with h | h
      · rw [h]; norm_num; omega
      · rw [h]; norm_num; omega
    unfold vm_ipa_to_pa
    rw [hfirst.2 hstop, wadd_val _ _ _ hpa (by omega), if_pos (by omega), hline]

/-- C2, concrete instance: the three pages from `0x10000` map contiguously to host-physical
`0x80000000`; the request for the two pages starting at offset `0x10` succeeds. -/
theorem vm_ipa_to_pa_contiguous_witness :
    ∃ host_base, vm_ipa_to_pa sampleCfg contiguousFrames mapVm 0x10010 0x2000 4
        = Result.ret host_base ∧
      host_base ≠ 0 ∧ host_base = host_pa contiguousFrames mapVm 0x10010 ∧
      ∀ addr, 0x10010 ≤ addr → addr < 0x10010 + 0x2000 → addr % 4096 = 0 →
        ∀ fuel1, 0 < fuel1 →
          vm_ipa_to_pa sampleCfg contiguousFrames mapVm addr 4096 fuel1
            = Result.ret (wadd sampleCfg.seL4_WordBits host_base (addr - 0x10010)) :=
  vm_ipa_to_pa_contiguous sampleCfg contiguousFrames mapVm 0x10010 0x2000 4
    (sampleVspace_wf contiguousFrames (by
      intro c h1 h2
      show (0x80000000 + (c - 16) * 4096) % 4096 = 0 ∧ 0x80000000 + (c - 16) * 4096 < 2 ^ 32
      norm_num
      omega))
    (by decide) (by decide) (by decide) (by decide)
    (by
      intro a h1 h2
      refine ⟨sampleVspace_mapped contiguousFrames (fun _ => rfl) a (by omega) (by omega), ?_⟩
      rw [sampleVspace_host_pa contiguousFrames a (by omega) (by omega),
        sampleVspace_host_pa contiguousFrames 0x10010 (by decide) (by decide)]
      show 0x80000000 + (a / 4096 - 16) * 4096 + a % 4096
        = 0x80000000 + (0x10010 / 4096 - 16) * 4096 + 0x10010 % 4096 + (a - 0x10010)
      omega)
    (by decide)

/-- C2, counterexample: (1) the page at guest-physical `0x10000` is mapped to the frame at
host-physical address 0; the one-page range is mapped and contiguous, yet `vm_ipa_to_pa`
returns 0, the "no mapping" value.  (2) For the empty range (`size = 0`) every page of the
range is vacuously mapped, yet on an address space without any mapping the result is 0. -/
theorem vm_ipa_to_pa_contiguous_counterexample :
    (MappingWellFormed 32 zeroFrames mapVm ∧
      (∀ a, 0x10000 ≤ a → a < 0x10000 + 0x1000 →
        page_mapped zeroFrames mapVm a ∧
          host_pa zeroFrames mapVm a = host_pa zeroFrames mapVm 0x10000 + (a - 0x10000)) ∧
      vm_ipa_to_pa sampleCfg zeroFrames mapVm 0x10000 0x1000 3 = Result.ret 0) ∧
    (MappingWellFormed 32 zeroFrames sampleVm ∧
      (∀ a, 0x5000 ≤ a → a < 0x5000 + 0 →
        page_mapped zeroFrames sampleVm a ∧
          host_pa zeroFrames sampleVm a = host_pa zeroFrames sampleVm 0x5000 + (a - 0x5000)) ∧
      vm_ipa_to_pa sampleCfg zeroFrames sampleVm 0x5000 0 3 = Result.ret 0) := by
  refine ⟨⟨?_, ?_, by decide⟩,
    ⟨⟨fun _ _ hm => absurd rfl hm, fun _ _ _ hm => absurd rfl hm, fun _ _ hm => absurd rfl hm⟩,
      fun a h1 h2 => by omega, by decide⟩⟩
  · apply sampleVspace_wf
    intro c h1 h2
    show ((c - 16) * 4096) % 4096 = 0 ∧ (c - 16) * 4096 < 2 ^ 32
    norm_num
    omega
  · intro a h1 h2
    refine ⟨sampleVspace_mapped zeroFrames (fun _ => rfl) a (by omega) (by omega), ?_⟩
    rw [sampleVspace_host_pa zeroFrames a (by omega) (by omega),
      sampleVspace_host_pa zeroFrames 0x10000 (by decide) (by decide)]
    show (a / 4096 - 16) * 4096 + a % 4096
      = (0x10000 / 4096 - 16) * 4096 + 0x10000 % 4096 + (a - 0x10000)
    omega


/-! ## Fault dispatch: theorems -/

theorem hsr_pattern_class (h : Nat) (hh : h < 2 ^ 32)
    (hp : h &&& 0xfc300000 = 0x60200000 ∨ h = 0xf2000800) : h >>> 26 ≠ 1 := by
  rw [Nat.shiftRight_eq_div_pow]
  rcases hp with hp | hp
  · have h1 : (h &&& 0xfc300000) &&& 0xfc000000 = 0x60000000 := by rw [hp]; decide
    rw [Nat.and_assoc] at h1
    have h2 : (0xfc300000 : Nat) &&& 0xfc000000 = wnot 32 (MASK 26) := by decide
    rw [h2, and_wnot_MASK 32 h 26 (by decide) hh] at h1
    norm_num at h1 ⊢
    omega
  · subst hp
    decide

theorem cassert_pass {α : Type} (cfg : Config) (c : Bool) (k : Result α) (h : c = true) :
    cassert cfg c k = k := by
  unfold cassert
  rw [if_pos (Or.inr h)]

/-- C16: for a message whose label is none of the five known labels, `vm_event` returns -1
and leaves the whole world as it was: no reply or other call is made (the trace is
unchanged), the guest's registers, the fault context, the device registry and the
reboot-hook list are unchanged. -/
theorem vm_event_unknown_label (env : Env) (abi : Abi) (cfg : Config) (fuel : Nat) (w : World)
    (tag : seL4_MessageInfo_t)
    (h1 : tag.label ≠ abi.seL4_Fault_VMFault)
    (h2 : tag.label ≠ abi.seL4_Fault_UnknownSyscall)
    (h3 : tag.label ≠ abi.seL4_Fault_UserException)
    (h4 : tag.label ≠ abi.seL4_Fault_VGICMaintenance)
    (h5 : tag.label ≠ abi.seL4_Fault_VCPUFault) :
    ∃ w1, vm_event env abi cfg fuel w tag = Result.ret (-1, w1) ∧
      w1.trace = w.trace ∧ w1.tcb_regs = w.tcb_regs ∧ w1.vm.fault = w.vm.fault ∧
      w1.vm.devices = w.vm.devices ∧ w1.vm.ndevices = w.vm.ndevices ∧
      w1.vm.rb_hooks = w.vm.rb_hooks ∧ w1.vm.nhooks = w.vm.nhooks := by
  refine ⟨w, ?_, rfl, rfl, rfl, rfl, rfl, rfl, rfl⟩
  unfold vm_event
  simp only [if_neg h1, if_neg h2, if_neg h3, if_neg h4, if_neg h5]

/-- C16, concrete instance: label 9 is none of the sample labels 5, 2, 3, 6, 7. -/
theorem vm_event_unknown_label_witness :
    ∃ w1, vm_event sampleEnv sampleAbi sampleCfg 1 sampleWorld { label := 9, length := 0 }
        = Result.ret (-1, w1) ∧
      w1.trace = sampleWorld.trace ∧ w1.tcb_regs = sampleWorld.tcb_regs ∧
      w1.vm.fault = sampleWorld.vm.fault ∧
      w1.vm.devices = sampleWorld.vm.devices ∧ w1.vm.ndevices = sampleWorld.vm.ndevices ∧
      w1.vm.rb_hooks = sampleWorld.vm.rb_hooks ∧ w1.vm.nhooks = sampleWorld.vm.nhooks :=
  vm_event_unknown_label sampleEnv sampleAbi sampleCfg 1 sampleWorld { label := 9, length := 0 }
    (by decide) (by decide) (by decide) (by decide) (by decide)

theorem vm_event_vcpu_case (env : Env) (abi : Abi) (cfg : Config) (fuel : Nat) (w : World)
    (tag : seL4_MessageInfo_t) (hd : LabelsDistinct abi)
    (hlabel : tag.label = abi.seL4_Fault_VCPUFault)
    (hlen : tag.length = abi.seL4_VCPUFault_Length) :
    vm_event env abi cfg fuel w tag =
      (if (w.mr abi.seL4_UnknownSyscall_ARG0 % 2 ^ 32) >>> 26 = 1 then
         Result.ret (0, new_wfi_fault w)
       else if (w.mr abi.seL4_UnknownSyscall_ARG0 % 2 ^ 32) &&& 0xfc300000 = 0x60200000 ∨
           w.mr abi.seL4_UnknownSyscall_ARG0 % 2 ^ 32 = 0xf2000800 then
         Result.ret (0, restart_fault (seL4_TCB_WriteRegisters
           { new_wfi_fault w with vm := { (new_wfi_fault w).vm with fault :=
               { (new_wfi_fault w).vm.fault with regs :=
                   { fault_get_ctx (new_wfi_fault w).vm.fault with
                     pc := wadd cfg.seL4_WordBits (fault_get_ctx (new_wfi_fault w).vm.fault).pc 4 } } } }
           { fault_get_ctx (new_wfi_fault w).vm.fault with
             pc := wadd cfg.seL4_WordBits (fault_get_ctx (new_wfi_fault w).vm.fault).pc 4 }).2)
       else Result.ret (-1, w)) := by
  obtain ⟨_, _, _, d4, _, _, d7, _, d9, d10⟩ := hd
  unfold vm_event
  simp only [hlabel]
  rw [if_neg (Ne.symm d4), if_neg (Ne.symm d7), if_neg (Ne.symm d9), if_neg (Ne.symm d10),
    if_pos trivial, cassert_pass _ _ _ (by simp [hlen])]

/-- C11: for a VCPU-fault message of the proper length, with `hsr` the 32-bit syndrome in its
first message register: if `hsr >> 26` is 1, whatever the lower 26 bits, `vm_event` creates a
WFI fault, returns 0 and makes no other call (no reply); if `hsr >> 26` is not 1,
`hsr & 0xfc300000` is not `0x60200000` and `hsr` is not `0xf2000800`, `vm_event` returns -1
and the world is unchanged (no WFI fault is created, no call is made). -/
theorem vm_event_vcpu_fault_classify (env : Env) (abi : Abi) (cfg : Config) (fuel : Nat)
    (w : World) (tag : seL4_MessageInfo_t) (hd : LabelsDistinct abi)
    (hlabel : tag.label = abi.seL4_Fault_VCPUFault)
    (hlen : tag.length = abi.seL4_VCPUFault_Length) :
    ((w.mr abi.seL4_UnknownSyscall_ARG0 % 2 ^ 32) >>> 26 = 1 →
      vm_event env abi cfg fuel w tag = Result.ret (0, new_wfi_fault w) ∧
      (new_wfi_fault w).trace = w.trace ++ [Event.new_wfi_fault]) ∧
    (∀ low, low < 2 ^ 26 → w.mr abi.seL4_UnknownSyscall_ARG0 = 1 * 2 ^ 26 + low →
      vm_event env abi cfg fuel w tag = Result.ret (0, new_wfi_fault w)) ∧
    ((w.mr abi.seL4_UnknownSyscall_ARG0 % 2 ^ 32) >>> 26 ≠ 1 →
      (w.mr abi.seL4_UnknownSyscall_ARG0 % 2 ^ 32) &&& 0xfc300000 ≠ 0x60200000 →
      w.mr abi.seL4_UnknownSyscall_ARG0 % 2 ^ 32 ≠ 0xf2000800 →
      vm_event env abi cfg fuel w tag = Result.ret (-1, w)) := by
  have hcase := vm_event_vcpu_case env abi cfg fuel w tag hd hlabel hlen
  refine ⟨?_, ?_, ?_⟩
  · intro h
    rw [hcase, if_pos h]
    exact ⟨rfl, rfl⟩
  · intro low hlow hmr
    have h : (w.mr abi.seL4_UnknownSyscall_ARG0 % 2 ^ 32) >>> 26 = 1 := by
      rw [hmr, Nat.shiftRight_eq_div_pow]
      norm_num at hlow ⊢
      omega
    rw [hcase, if_pos h]
  · intro h1 h2 h3
    rw [hcase, if_neg h1, if_neg (fun hc => hc.elim h2 h3)]

/-- C11, concrete instance: the syndrome `0x07ffffff` (class 1, all lower bits set) gives
WaitForEvent, the syndrome `0x93000000` (class 36) is unhandled. -/
theorem vm_event_vcpu_fault_classify_witness :
    vm_event sampleEnv sampleAbi sampleCfg 0 (vcpuWorld 0x07ffffff) { label := 7, length := 1 }
      = Result.ret (0, new_wfi_fault (vcpuWorld 0x07ffffff)) ∧
    vm_event sampleEnv sampleAbi sampleCfg 0 (vcpuWorld 0x93000000) { label := 7, length := 1 }
      = Result.ret (-1, vcpuWorld 0x93000000) :=
  ⟨((vm_event_vcpu_fault_classify sampleEnv sampleAbi sampleCfg 0 (vcpuWorld 0x07ffffff)
      { label := 7, length := 1 } (by decide) rfl rfl).1 (by decide)).1,
   (vm_event_vcpu_fault_classify sampleEnv sampleAbi sampleCfg 0 (vcpuWorld 0x93000000)
      { label := 7, length := 1 } (by decide) rfl rfl).2.2 (by decide) (by decide) (by decide)⟩


/-- C19: for a VCPU-fault message of the proper length whose 32-bit syndrome `hsr` matches one
of the two special patterns (`(hsr & 0xfc300000) == 0x60200000` or `hsr == 0xf2000800`),
`vm_event` returns 0 after exactly three calls: it creates a WFI fault, writes back the
fault's register snapshot with the instruction pointer advanced by 4 (wrapping at the word
size) and every other register unchanged, and restarts the fault.  Neither pattern has
exception class 1 (`hsr >> 26 == 1`), so primary class, special patterns and the rest
partition the syndromes. -/
theorem vm_event_vcpu_fault_special (env : Env) (abi : Abi) (cfg : Config) (fuel : Nat)
    (w : World) (tag : seL4_MessageInfo_t) (hd : LabelsDistinct abi)
    (hlabel : tag.label = abi.seL4_Fault_VCPUFault)
    (hlen : tag.length = abi.seL4_VCPUFault_Length) :
    (((w.mr abi.seL4_UnknownSyscall_ARG0 % 2 ^ 32) &&& 0xfc300000 = 0x60200000 ∨
        w.mr abi.seL4_UnknownSyscall_ARG0 % 2 ^ 32 = 0xf2000800) →
      ∃ w1, vm_event env abi cfg fuel w tag = Result.ret (0, w1) ∧
        w1.trace = w.trace ++
          [Event.new_wfi_fault,
           Event.seL4_TCB_WriteRegisters
             { fault_get_ctx (new_wfi_fault w).vm.fault with
               pc := wadd cfg.seL4_WordBits (fault_get_ctx (new_wfi_fault w).vm.fault).pc 4 },
           Event.restart_fault] ∧
        w1.tcb_regs = { fault_get_ctx (new_wfi_fault w).vm.fault with
               pc := wadd cfg.seL4_WordBits (fault_get_ctx (new_wfi_fault w).vm.fault).pc 4 } ∧
        w1.tcb_regs.r0 = (fault_get_ctx (new_wfi_fault w).vm.fault).r0 ∧
        w1.tcb_regs.others = (fault_get_ctx (new_wfi_fault w).vm.fault).others ∧
        ((fault_get_ctx (new_wfi_fault w).vm.fault).pc + 4 < 2 ^ cfg.seL4_WordBits →
          w1.tcb_regs.pc = (fault_get_ctx (new_wfi_fault w).vm.fault).pc + 4) ∧
        fault_handled w1.vm.fault = true ∧
        w1.vm.devices = w.vm.devices ∧ w1.vm.ndevices = w.vm.ndevices) ∧
    (∀ hsr, hsr < 2 ^ 32 → (hsr &&& 0xfc300000 = 0x60200000 ∨ hsr = 0xf2000800) →
      hsr >>> 26 ≠ 1) := by
  refine ⟨?_, fun hsr h1 h2 => hsr_pattern_class hsr h1 h2⟩
  intro hp
  have hcls := hsr_pattern_class (w.mr abi.seL4_UnknownSyscall_ARG0 % 2 ^ 32)
    (Nat.mod_lt _ (by decide)) hp
  have hcase := vm_event_vcpu_case env abi cfg fuel w tag hd hlabel hlen
  rw [if_neg hcls, if_pos hp] at hcase
  refine ⟨_, hcase, ?_, rfl, rfl, rfl, ?_, rfl, rfl, rfl⟩
  · simp [restart_fault, seL4_TCB_WriteRegisters, new_wfi_fault]
  · intro hlt
    show wadd cfg.seL4_WordBits (fault_get_ctx (new_wfi_fault w).vm.fault).pc 4 = _
    unfold wadd
    exact Nat.mod_eq_of_lt hlt

/-- C19, concrete instance: the syndrome `0x62200000` matches the first pattern; the guest
stopped at `pc = 0x8000` is restarted at `0x8004` with its other registers as they were. -/
theorem vm_event_vcpu_fault_special_witness :
    ∃ w1, vm_event sampleEnv sampleAbi sampleCfg 0 (vcpuWorld 0x62200000)
        { label := 7, length := 1 } = Result.ret (0, w1) ∧
      w1.trace = [Event.new_wfi_fault,
        Event.seL4_TCB_WriteRegisters { pc := 0x8004, r0 := 5, others := [1, 2, 3] },
        Event.restart_fault] ∧
      w1.tcb_regs = { pc := 0x8004, r0 := 5, others := [1, 2, 3] } := by
  obtain ⟨w1, h1, h2, h3, _⟩ :=
    (vm_event_vcpu_fault_special sampleEnv sampleAbi sampleCfg 0 (vcpuWorld 0x62200000)
      { label := 7, length := 1 } (by decide) rfl rfl).1 (Or.inl (by decide))
  exact ⟨w1, h1, by rw [h2]; decide, by rw [h3]; decide⟩

theorem vm_event_syscall_case (env : Env) (abi : Abi) (cfg : Config) (fuel : Nat) (w : World)
    (tag : seL4_MessageInfo_t) (hd : LabelsDistinct abi)
    (hlabel : tag.label = abi.seL4_Fault_UnknownSyscall) :
    vm_event env abi cfg fuel w tag =
      cassert cfg (decide (tag.length = abi.seL4_UnknownSyscall_Length))
        ((handle_syscall env abi cfg w tag.length).bind (reply_unless_error cfg)) := by
  unfold vm_event
  simp only [hlabel]
  rw [if_neg (Ne.symm hd.1), if_pos trivial]

theorem handle_syscall_simple (env : Env) (abi : Abi) (cfg : Config) (w : World) (len : Nat)
    (regs : seL4_UserContext)
    (h : (w.mr abi.seL4_UnknownSyscall_Syscall = 65 ∧
            sys_pa_to_ipa cfg { w.tcb_regs with pc := wadd cfg.seL4_WordBits w.tcb_regs.pc 4 }
              = regs) ∨
         (w.mr abi.seL4_UnknownSyscall_Syscall = 67 ∧
            sys_nop { w.tcb_regs with pc := wadd cfg.seL4_WordBits w.tcb_regs.pc 4 } = regs)) :
    handle_syscall env abi cfg w len =
      Result.ret (0, { w with tcb_regs := regs,
                              trace := w.trace ++ [Event.seL4_TCB_ReadRegisters,
                                                   Event.seL4_TCB_WriteRegisters regs] }) := by
  unfold handle_syscall
  rw [cassert_pass _ _ _ (by simp [seL4_TCB_ReadRegisters])]
  rcases h with ⟨h1, h2⟩ | ⟨h1, h2⟩
  · simp only [h1, if_true]
    rw [cassert_pass _ _ _ (by simp [seL4_TCB_WriteRegisters])]
    simp only [seL4_TCB_ReadRegisters, seL4_TCB_WriteRegisters, World.emit]
    rw [h2]
    simp
  · simp only [h1]
    rw [if_neg (by decide), if_neg (by decide), if_pos trivial]
    rw [cassert_pass _ _ _ (by simp [seL4_TCB_WriteRegisters])]
    simp only [seL4_TCB_ReadRegisters, seL4_TCB_WriteRegisters, World.emit]
    rw [h2]
    simp

/-- C12: for the hypercall numbers 67 (no-op) and 65 (PA to IPA), with the guest's argument
register a 32-bit value, `handle_syscall` returns 0 after reading the guest's registers and
writing back a snapshot that equals the one read except for the instruction pointer, which is
advanced by 4 modulo the word size; and `vm_event`, given the unknown-syscall message of the
proper length, then sends exactly one reply and returns 0. -/
theorem handle_syscall_nop_keeps_registers (env : Env) (abi : Abi) (cfg : Config) (fuel : Nat)
    (w : World) (tag : seL4_MessageInfo_t)
    (hs : w.mr abi.seL4_UnknownSyscall_Syscall = 67 ∨ w.mr abi.seL4_UnknownSyscall_Syscall = 65)
    (hr0 : w.tcb_regs.r0 < 2 ^ 32) :
    handle_syscall env abi cfg w tag.length =
      Result.ret (0, { w with
        tcb_regs := { w.tcb_regs with pc := wadd cfg.seL4_WordBits w.tcb_regs.pc 4 },
        trace := w.trace ++ [Event.seL4_TCB_ReadRegisters,
          Event.seL4_TCB_WriteRegisters
            { w.tcb_regs with pc := wadd cfg.seL4_WordBits w.tcb_regs.pc 4 }] }) ∧
    (LabelsDistinct abi → tag.label = abi.seL4_Fault_UnknownSyscall →
      tag.length = abi.seL4_UnknownSyscall_Length →
      vm_event env abi cfg fuel w tag =
        Result.ret (0, { w with
          tcb_regs := { w.tcb_regs with pc := wadd cfg.seL4_WordBits w.tcb_regs.pc 4 },
          trace := w.trace ++ [Event.seL4_TCB_ReadRegisters,
            Event.seL4_TCB_WriteRegisters
              { w.tcb_regs with pc := wadd cfg.seL4_WordBits w.tcb_regs.pc 4 },
            Event.seL4_Reply] })) := by
  have hsys : handle_syscall env abi cfg w tag.length =
      Result.ret (0, { w with
        tcb_regs := { w.tcb_regs with pc := wadd cfg.seL4_WordBits w.tcb_regs.pc 4 },
        trace := w.trace ++ [Event.seL4_TCB_ReadRegisters,
          Event.seL4_TCB_WriteRegisters
            { w.tcb_regs with pc := wadd cfg.seL4_WordBits w.tcb_regs.pc 4 }] }) := by
    apply handle_syscall_simple
    rcases hs with h | h
    · exact Or.inr ⟨h, rfl⟩
    · refine Or.inl ⟨h, ?_⟩
      unfold sys_pa_to_ipa
      by_cases ha : cfg.CONFIG_ARCH_AARCH64 = true
      · rw [if_pos ha]
      · rw [if_neg ha]
        simp only [Nat.mod_eq_of_lt hr0]
  refine ⟨hsys, ?_⟩
  intro hd hlabel hlen
  rw [vm_event_syscall_case env abi cfg fuel w tag hd hlabel,
    cassert_pass _ _ _ (by simp [hlen]), hsys]
  simp [Result.bind, reply_unless_error, cassert, seL4_Reply, World.emit]

/-- C12, concrete instance: hypercall 65 with `r0 = 5` at `pc = 0x8000`: the registers are
written back with `pc = 0x8004`, and one reply is sent. -/
theorem handle_syscall_nop_keeps_registers_witness :
    ∃ w1, vm_event sampleEnv sampleAbi sampleCfg 0 (syscallWorld 65 5)
        { label := 2, length := 13 } = Result.ret (0, w1) ∧
      w1.tcb_regs = { pc := 0x8004, r0 := 5, others := [1, 2, 3] } ∧
      w1.trace = [Event.seL4_TCB_ReadRegisters,
        Event.seL4_TCB_WriteRegisters { pc := 0x8004, r0 := 5, others := [1, 2, 3] },
        Event.seL4_Reply] :=
  ⟨_, (handle_syscall_nop_keeps_registers sampleEnv sampleAbi sampleCfg 0 (syscallWorld 65 5)
      { label := 2, length := 13 } (Or.inr rfl) (by decide)).2 (by decide) rfl rfl,
    by decide, by decide⟩


theorem sys_ipa_to_pa_aarch64 (env : Env) (cfg : Config) (w : World) (regs : seL4_UserContext)
    (harch : cfg.CONFIG_ARCH_AARCH64 = true) :
    ∀ p, sys_ipa_to_pa env cfg w regs = Result.ret p → p.1 = regs := by
  intro p h
  unfold sys_ipa_to_pa at h
  simp only [harch, if_true, cassert] at h
  split_ifs at h <;> (cases h; rfl)

/-- In the AArch64 build the IPA-to-PA hypercall (66) never writes the argument register:
whenever `handle_syscall` returns, the result is 0 and the snapshot written back is the one
read with only the instruction pointer advanced. -/
theorem handle_syscall_ipa_to_pa_aarch64 (env : Env) (abi : Abi) (cfg : Config) (w : World)
    (len : Nat) (harch : cfg.CONFIG_ARCH_AARCH64 = true)
    (hs : w.mr abi.seL4_UnknownSyscall_Syscall = 66) :
    ∀ r w1, handle_syscall env abi cfg w len = Result.ret (r, w1) →
      r = 0 ∧
      w1.tcb_regs = { w.tcb_regs with pc := wadd cfg.seL4_WordBits w.tcb_regs.pc 4 } := by
  intro r w1 h
  unfold handle_syscall at h
  rw [cassert_pass _ _ _ (by simp [seL4_TCB_ReadRegisters])] at h
  simp only [hs] at h
  rw [if_neg (by decide), if_pos trivial] at h
  cases hr : sys_ipa_to_pa env cfg (seL4_TCB_ReadRegisters w).2.2
      { (seL4_TCB_ReadRegisters w).2.1 with
        pc := wadd cfg.seL4_WordBits (seL4_TCB_ReadRegisters w).2.1.pc 4 } with
  | ret p =>
    have hp := sys_ipa_to_pa_aarch64 env cfg _ _ harch p hr
    rw [hr] at h
    simp only [Result.bind] at h
    rw [cassert_pass _ _ _ (by simp [seL4_TCB_WriteRegisters])] at h
    cases h
    exact ⟨rfl, hp⟩
  | assert_fail => rw [hr] at h; cases h
  | timeout => rw [hr] at h; cases h

theorem handle_syscall_unknown_number (env : Env) (abi : Abi) (cfg : Config) (w : World)
    (len : Nat) (h65 : w.mr abi.seL4_UnknownSyscall_Syscall ≠ 65)
    (h66 : w.mr abi.seL4_UnknownSyscall_Syscall ≠ 66)
    (h67 : w.mr abi.seL4_UnknownSyscall_Syscall ≠ 67) :
    handle_syscall env abi cfg w len
      = Result.ret (-1, w.emit Event.seL4_TCB_ReadRegisters) := by
  unfold handle_syscall
  rw [cassert_pass _ _ _ (by simp [seL4_TCB_ReadRegisters])]
  simp only
  rw [if_neg h65, if_neg h66, if_neg h67]
  rfl

/-- The unknown-syscall case of `vm_event` on a hypercall number other than 65, 66, 67: with
assertions it stops at `assert(!err)`, without them it returns 0; no reply either way. -/
theorem vm_event_unknown_syscall_number (env : Env) (abi : Abi) (cfg : Config) (fuel : Nat)
    (w : World) (tag : seL4_MessageInfo_t) (hd : LabelsDistinct abi)
    (hlabel : tag.label = abi.seL4_Fault_UnknownSyscall)
    (hlen : tag.length = abi.seL4_UnknownSyscall_Length)
    (h65 : w.mr abi.seL4_UnknownSyscall_Syscall ≠ 65)
    (h66 : w.mr abi.seL4_UnknownSyscall_Syscall ≠ 66)
    (h67 : w.mr abi.seL4_UnknownSyscall_Syscall ≠ 67) :
    vm_event env abi cfg fuel w tag =
      if cfg.NDEBUG = true then Result.ret (0, w.emit Event.seL4_TCB_ReadRegisters)
      else Result.assert_fail := by
  rw [vm_event_syscall_case env abi cfg fuel w tag hd hlabel,
    cassert_pass _ _ _ (by simp [hlen]),
    handle_syscall_unknown_number env abi cfg w _ h65 h66 h67]
  simp only [Result.bind, reply_unless_error, cassert]
  by_cases hn : cfg.NDEBUG = true
  · simp [hn]
  · simp [hn]

/-- C14, the code at the failing input: hypercall number 0.  `handle_syscall` returns -1
having only read the registers; `vm_event` built with `NDEBUG` then returns 0 (success)
without a reply, and built with assertions it stops at `assert(!err)`. -/
theorem vm_event_unknown_syscall_returns_success :
    handle_syscall sampleEnv sampleAbi releaseCfg (syscallWorld 0 5) 13
      = Result.ret (-1, (syscallWorld 0 5).emit Event.seL4_TCB_ReadRegisters) ∧
    vm_event sampleEnv sampleAbi releaseCfg 0 (syscallWorld 0 5) { label := 2, length := 13 }
      = Result.ret (0, (syscallWorld 0 5).emit Event.seL4_TCB_ReadRegisters) ∧
    ((syscallWorld 0 5).emit Event.seL4_TCB_ReadRegisters).trace
      = [Event.seL4_TCB_ReadRegisters] ∧
    vm_event sampleEnv sampleAbi sampleCfg 0 (syscallWorld 0 5) { label := 2, length := 13 }
      = Result.assert_fail :=
  ⟨rfl, rfl, rfl, rfl⟩

/-- The user-exception case of `vm_event`: `handle_exception` returns 1, so with assertions
it stops at `assert(!err)` and without them it returns 0; no reply either way. -/
theorem vm_event_user_exception_case (env : Env) (abi : Abi) (cfg : Config) (fuel : Nat)
    (w : World) (tag : seL4_MessageInfo_t) (hd : LabelsDistinct abi)
    (hlabel : tag.label = abi.seL4_Fault_UserException)
    (hlen : tag.length = abi.seL4_UserException_Length) :
    vm_event env abi cfg fuel w tag =
      if cfg.NDEBUG = true then Result.ret (0, w.emit Event.seL4_TCB_ReadRegisters)
      else Result.assert_fail := by
  obtain ⟨_, d2, _, _, d5, _, _, _, _, _⟩ := hd
  unfold vm_event
  simp only [hlabel]
  rw [if_neg (Ne.symm d2), if_neg (Ne.symm d5), if_pos trivial,
    cassert_pass _ _ _ (by simp [hlen])]
  unfold handle_exception
  rw [cassert_pass _ _ _ (by simp [seL4_TCB_ReadRegisters])]
  simp only [Result.bind, reply_unless_error, cassert, seL4_TCB_ReadRegisters]
  by_cases hn : cfg.NDEBUG = true
  · simp [hn]
  · simp [hn]

/-- C15, the code at the failing input: a user-exception message.  Built with assertions
`vm_event` stops at `assert(!err)`; built with `NDEBUG` it returns 0 having only read the
registers: no reply is sent in either build. -/
theorem vm_event_user_exception_never_replies :
    vm_event sampleEnv sampleAbi sampleCfg 0 sampleWorld { label := 3, length := 5 }
      = Result.assert_fail ∧
    vm_event sampleEnv sampleAbi releaseCfg 0 sampleWorld { label := 3, length := 5 }
      = Result.ret (0, sampleWorld.emit Event.seL4_TCB_ReadRegisters) ∧
    (sampleWorld.emit Event.seL4_TCB_ReadRegisters).trace = [Event.seL4_TCB_ReadRegisters] :=
  ⟨rfl, rfl, rfl⟩

/-- With on-demand device installation and a fault that no device owns, outside the null
page: the identity device mapping is tried first and, if it succeeds, the fault is restarted;
otherwise the RAM mapping is tried and, if it succeeds, the fault is restarted; if both fail
the fault is printed and abandoned and the result is -1. -/
theorem handle_page_fault_ondemand (env : Env) (cfg : Config) (w : World)
    (hon : cfg.CONFIG_ONDEMAND_DEVICE_INSTALL = true)
    (hno : ∀ l, l < w.vm.ndevices →
      dev_paddr_in_range (fault_get_address w.vm.fault) (w.vm.devices l) = false)
    (hnz : fault_get_address w.vm.fault &&& wnot cfg.seL4_WordBits 0xfff ≠ 0) :
    (handle_page_fault env cfg w).1 =
      (if (env.map_vm_device (fault_get_address w.vm.fault &&& wnot cfg.seL4_WordBits 0xfff)
            (fault_get_address w.vm.fault &&& wnot cfg.seL4_WordBits 0xfff) w).1 ≠ NULL then 0
       else if ((w.call (env.map_vm_device
            (fault_get_address w.vm.fault &&& wnot cfg.seL4_WordBits 0xfff)
            (fault_get_address w.vm.fault &&& wnot cfg.seL4_WordBits 0xfff))
          (fun _ => Event.map_vm_device
            (fault_get_address w.vm.fault &&& wnot cfg.seL4_WordBits 0xfff)
            (fault_get_address w.vm.fault &&& wnot cfg.seL4_WordBits 0xfff))).2.call
          (env.map_vm_ram (fault_get_address w.vm.fault &&& wnot cfg.seL4_WordBits 0xfff))
          (fun _ => Event.map_vm_ram
            (fault_get_address w.vm.fault &&& wnot cfg.seL4_WordBits 0xfff))).1 ≠ NULL then 0
       else -1) ∧
    (handle_page_fault env cfg w).2.trace = w.trace ++
      (if (env.map_vm_device (fault_get_address w.vm.fault &&& wnot cfg.seL4_WordBits 0xfff)
            (fault_get_address w.vm.fault &&& wnot cfg.seL4_WordBits 0xfff) w).1 ≠ NULL then
         [Event.map_vm_device (fault_get_address w.vm.fault &&& wnot cfg.seL4_WordBits 0xfff)
            (fault_get_address w.vm.fault &&& wnot cfg.seL4_WordBits 0xfff),
          Event.restart_fault]
       else if ((w.call (env.map_vm_device
            (fault_get_address w.vm.fault &&& wnot cfg.seL4_WordBits 0xfff)
            (fault_get_address w.vm.fault &&& wnot cfg.seL4_WordBits 0xfff))
          (fun _ => Event.map_vm_device
            (fault_get_address w.vm.fault &&& wnot cfg.seL4_WordBits 0xfff)
            (fault_get_address w.vm.fault &&& wnot cfg.seL4_WordBits 0xfff))).2.call
          (env.map_vm_ram (fault_get_address w.vm.fault &&& wnot cfg.seL4_WordBits 0xfff))
          (fun _ => Event.map_vm_ram
            (fault_get_address w.vm.fault &&& wnot cfg.seL4_WordBits 0xfff))).1 ≠ NULL then
         [Event.map_vm_device (fault_get_address w.vm.fault &&& wnot cfg.seL4_WordBits 0xfff)
            (fault_get_address w.vm.fault &&& wnot cfg.seL4_WordBits 0xfff),
          Event.map_vm_ram (fault_get_address w.vm.fault &&& wnot cfg.seL4_WordBits 0xfff),
          Event.restart_fault]
       else
         [Event.map_vm_device (fault_get_address w.vm.fault &&& wnot cfg.seL4_WordBits 0xfff)
            (fault_get_address w.vm.fault &&& wnot cfg.seL4_WordBits 0xfff),
          Event.map_vm_ram (fault_get_address w.vm.fault &&& wnot cfg.seL4_WordBits 0xfff),
          Event.print_fault, Event.abandon_fault]) := by
  have hnone := (vm_find_device_by_ipa_none_aux w.vm (fault_get_address w.vm.fault)).2 hno
  unfold handle_page_fault
  rw [hnone]
  simp only [hon, if_true]
  rw [if_neg hnz]
  generalize fault_get_address w.vm.fault &&& wnot cfg.seL4_WordBits 0xfff = addr
  by_cases h1 : (env.map_vm_device addr addr w).1 ≠ NULL
  · have h1' : (w.call (env.map_vm_device addr addr)
        (fun _ => Event.map_vm_device addr addr)).1 ≠ NULL := h1
    rw [if_pos h1', if_pos h1, if_pos h1]
    exact ⟨rfl, by simp [restart_fault, World.call]⟩
  · have h1' : ¬ (w.call (env.map_vm_device addr addr)
        (fun _ => Event.map_vm_device addr addr)).1 ≠ NULL := h1
    rw [if_neg h1', if_neg h1, if_neg h1]
    by_cases h2 : ((w.call (env.map_vm_device addr addr)
        (fun _ => Event.map_vm_device addr addr)).2.call (env.map_vm_ram addr)
        (fun _ => Event.map_vm_ram addr)).1 ≠ NULL
    · rw [if_pos h2, if_pos h2, if_pos h2]
      exact ⟨rfl, by simp [restart_fault, World.call]⟩
    · rw [if_neg h2, if_neg h2, if_neg h2]
      exact ⟨rfl, by simp [abandon_fault, print_fault, World.call, World.emit]⟩

/-- C18, the code at the failing input: on-demand installation enabled and a fault at `0x10`,
whose page-aligned address is 0 and which no device owns.  `handle_page_fault` returns -1
after the single call `print_fault`: `abandon_fault` is not called and the fault is not
marked handled. -/
theorem handle_page_fault_null_not_abandoned :
    (∀ l, l < nullFaultWorld.vm.ndevices →
      dev_paddr_in_range (fault_get_address nullFaultWorld.vm.fault)
        (nullFaultWorld.vm.devices l) = false) ∧
    (handle_page_fault sampleEnv ondemandCfg nullFaultWorld).1 = -1 ∧
    (handle_page_fault sampleEnv ondemandCfg nullFaultWorld).2.trace = [Event.print_fault] ∧
    fault_handled (handle_page_fault sampleEnv ondemandCfg nullFaultWorld).2.vm.fault = false := by
  refine ⟨?_, by decide, by decide, by decide⟩
  intro l hl
  have hl2 : l < 2 := hl
  have : l = 0 ∨ l = 1 := by omega
  rcases this with rfl | rfl <;> decide


/-! ## Registry invariants: theorems -/

theorem vm_add_device_counts (MAXD MAXH : Nat) (vm : vm_t) (d : device)
    (h : CountsWithinCapacity MAXD MAXH vm) :
    CountsWithinCapacity MAXD MAXH (vm_add_device MAXD vm d).2 := by
  unfold vm_add_device
  by_cases hlt : vm.ndevices < MAXD
  · rw [if_pos hlt]
    exact ⟨Nat.succ_le_of_lt hlt, h.2⟩
  · rw [if_neg hlt]
    exact h

theorem vm_register_reboot_callback_counts (MAXD MAXH : Nat) (vm : vm_t) (hook token : Nat)
    (h : CountsWithinCapacity MAXD MAXH vm) :
    CountsWithinCapacity MAXD MAXH (vm_register_reboot_callback MAXH vm hook token).2 := by
  unfold vm_register_reboot_callback
  by_cases h0 : hook = NULL
  · rw [if_pos h0]
    exact h
  · rw [if_neg h0]
    simp only
    by_cases hlt : vm.nhooks < MAXH
    · rw [if_pos hlt]
      exact ⟨h.1, Nat.succ_le_of_lt hlt⟩
    · rw [if_neg hlt]
      exact h

theorem vm_process_reboot_callbacks_loop_counts (env : Env) (MAXD MAXH : Nat)
    (hk : HooksKeepCounts env MAXD MAXH) :
    ∀ fuel i w r, CountsWithinCapacity MAXD MAXH w.vm →
      vm_process_reboot_callbacks_loop env fuel i w = Result.ret r →
      CountsWithinCapacity MAXD MAXH r.2.vm := by
  intro fuel
  induction fuel with
  | zero =>
    intro i w r _ h
    simp [vm_process_reboot_callbacks_loop] at h
  | succ fuel ih =>
    intro i w r hw h
    unfold vm_process_reboot_callbacks_loop at h
    by_cases hlt : i < w.vm.nhooks
    · rw [if_pos hlt] at h
      simp only at h
      by_cases hnull : (w.vm.rb_hooks i).fn = NULL
      · rw [if_pos hnull] at h
        cases h
        exact hw
      · rw [if_neg hnull] at h
        have hw1 : CountsWithinCapacity MAXD MAXH
            (w.call (env.reboot_hook (w.vm.rb_hooks i).fn (w.vm.rb_hooks i).token)
              (Event.reboot_hook (w.vm.rb_hooks i).fn (w.vm.rb_hooks i).token)).2.vm :=
          hk _ _ w hw
        split at h
        · cases h
          exact hw1
        · exact ih _ _ _ hw1 h
    · rw [if_neg hlt] at h
      cases h
      exact hw

theorem api_step_counts (env : Env) (MAXD MAXH : Nat) (hk : HooksKeepCounts env MAXD MAXH)
    (w w1 : World) (c : ApiCall) (hw : CountsWithinCapacity MAXD MAXH w.vm)
    (h : api_step env MAXD MAXH w c = some w1) : CountsWithinCapacity MAXD MAXH w1.vm := by
  cases c with
  | add_device d =>
    simp only [api_step, Option.some.injEq] at h
    subst h
    exact vm_add_device_counts MAXD MAXH w.vm d hw
  | register_reboot_callback hook token =>
    simp only [api_step, Option.some.injEq] at h
    subst h
    exact vm_register_reboot_callback_counts MAXD MAXH w.vm hook token hw
  | find_device_by_id id =>
    simp only [api_step, Option.some.injEq] at h
    subst h
    exact hw
  | find_device_by_ipa ipa =>
    simp only [api_step, Option.some.injEq] at h
    subst h
    exact hw
  | process_reboot_callbacks fuel =>
    simp only [api_step] at h
    cases hr : vm_process_reboot_callbacks env fuel w with
    | ret r =>
      rw [hr] at h
      simp only [Option.some.injEq] at h
      subst h
      exact vm_process_reboot_callbacks_loop_counts env MAXD MAXH hk fuel 0 w r hw hr
    | assert_fail => rw [hr] at h; simp at h
    | timeout => rw [hr] at h; simp at h

/-- C17: starting from a VM with `ndevices = 0` and `nhooks = 0`, and provided the reboot
callbacks themselves keep the counters within capacity, after every sequence of
`vm_add_device`, `vm_register_reboot_callback`, `vm_find_device_by_id`,
`vm_find_device_by_ipa` and `vm_process_reboot_callbacks` calls the counters satisfy
`ndevices <= MAX_DEVICES_PER_VM` and `nhooks <= MAX_REBOOT_HOOKS_PER_VM` (they are naturals,
so never negative); and in the state reached, a further `vm_add_device` or
`vm_register_reboot_callback` changes no table slot at or beyond the capacity. -/
theorem registry_counts_within_capacity (env : Env) (MAXD MAXH : Nat)
    (hk : HooksKeepCounts env MAXD MAXH) (w0 : World)
    (hd0 : w0.vm.ndevices = 0) (hh0 : w0.vm.nhooks = 0) :
    ∀ calls w1, api_run env MAXD MAXH w0 calls = some w1 →
      (0 ≤ w1.vm.ndevices ∧ w1.vm.ndevices ≤ MAXD) ∧
      (0 ≤ w1.vm.nhooks ∧ w1.vm.nhooks ≤ MAXH) ∧
      (∀ d i, MAXD ≤ i → (vm_add_device MAXD w1.vm d).2.devices i = w1.vm.devices i) ∧
      (∀ hook token i, MAXH ≤ i →
        (vm_register_reboot_callback MAXH w1.vm hook token).2.rb_hooks i = w1.vm.rb_hooks i) := by
  have hinv : ∀ calls w w1, CountsWithinCapacity MAXD MAXH w.vm →
      api_run env MAXD MAXH w calls = some w1 → CountsWithinCapacity MAXD MAXH w1.vm := by
    intro calls
    induction calls with
    | nil =>
      intro w w1 hw h
      simp only [api_run, Option.some.injEq] at h
      subst h
      exact hw
    | cons c cs ih =>
      intro w w1 hw h
      unfold api_run at h
      cases hs : api_step env MAXD MAXH w c with
      | none => rw [hs] at h; simp at h
      | some w2 =>
        rw [hs] at h
        exact ih w2 w1 (api_step_counts env MAXD MAXH hk w w2 c hw hs) h
  intro calls w1 h
  have hc := hinv calls w0 w1 ⟨by omega, by omega⟩ h
  refine ⟨⟨Nat.zero_le _, hc.1⟩, ⟨Nat.zero_le _, hc.2⟩, ?_, ?_⟩
  · intro d i hi
    unfold vm_add_device
    by_cases hlt : w1.vm.ndevices < MAXD
    · rw [if_pos hlt]
      have : i ≠ w1.vm.ndevices := by omega
      simp [Function.update, this]
    · rw [if_neg hlt]
  · intro hook token i hi
    unfold vm_register_reboot_callback
    by_cases h0 : hook = NULL
    · rw [if_pos h0]
    · rw [if_neg h0]
      simp only
      by_cases hlt : w1.vm.nhooks < MAXH
      · rw [if_pos hlt]
        have : i ≠ w1.vm.nhooks := by omega
        simp [Function.update, this]
      · rw [if_neg hlt]

/-- C17, concrete instance: with capacity 2 for devices and 1 for hooks, three installs, two
registrations, two lookups and a run of the hooks leave the counters at 2 and 1. -/
theorem registry_counts_within_capacity_witness :
    ∃ w1, api_run sampleEnv 2 1 freshWorld
        [ApiCall.add_device (mkDev 1 0x1000 0x1000 100),
         ApiCall.add_device (mkDev 2 0x3000 0x100 200),
         ApiCall.find_device_by_ipa 0x3010,
         ApiCall.add_device (mkDev 3 0x5000 0x10 300),
         ApiCall.register_reboot_callback 1 10,
         ApiCall.register_reboot_callback 3 30,
         ApiCall.find_device_by_id 2,
         ApiCall.process_reboot_callbacks 5] = some w1 ∧
      w1.vm.ndevices = 2 ∧ w1.vm.nhooks = 1 ∧
      (0 ≤ w1.vm.ndevices ∧ w1.vm.ndevices ≤ 2) ∧ (0 ≤ w1.vm.nhooks ∧ w1.vm.nhooks ≤ 1) := by
  refine ⟨_, rfl, by decide, by decide, ?_⟩
  have h := registry_counts_within_capacity sampleEnv 2 1 (fun _ _ _ hw => hw) freshWorld rfl rfl
    [ApiCall.add_device (mkDev 1 0x1000 0x1000 100),
     ApiCall.add_device (mkDev 2 0x3000 0x100 200),
     ApiCall.find_device_by_ipa 0x3010,
     ApiCall.add_device (mkDev 3 0x5000 0x10 300),
     ApiCall.register_reboot_callback 1 10,
     ApiCall.register_reboot_callback 3 30,
     ApiCall.find_device_by_id 2,
     ApiCall.process_reboot_callbacks 5] _ rfl
  exact ⟨h.1, h.2.1⟩


theorem vm_add_device_success (MAXD : Nat) (vm : vm_t) (d : device)
    (hok : (vm_add_device MAXD vm d).1 = 0) :
    vm.ndevices < MAXD ∧
      (vm_add_device MAXD vm d).2 =
        { vm with devices := Function.update vm.devices vm.ndevices d,
                  ndevices := vm.ndevices + 1 } := by
  unfold vm_add_device at hok ⊢
  by_cases hlt : vm.ndevices < MAXD
  · rw [if_pos hlt]
    exact ⟨hlt, rfl⟩
  · rw [if_neg hlt] at hok
    simp at hok

/-- Lookup after a successful install, for any comparison function. -/
theorem vm_find_device_after_add (MAXD : Nat) (vm : vm_t) (d : device) (cmp : device → Int)
    (hok : (vm_add_device MAXD vm d).1 = 0) :
    (∀ j, vm_find_device vm cmp = some j →
      vm_find_device (vm_add_device MAXD vm d).2 cmp = some j ∧
        (vm_add_device MAXD vm d).2.devices j = vm.devices j) ∧
    (vm_find_device vm cmp = none →
      (cmp d = 0 →
        vm_find_device (vm_add_device MAXD vm d).2 cmp = some vm.ndevices ∧
          (vm_add_device MAXD vm d).2.devices vm.ndevices = d) ∧
      (cmp d ≠ 0 → vm_find_device (vm_add_device MAXD vm d).2 cmp = none)) := by
  obtain ⟨_, heq⟩ := vm_add_device_success MAXD vm d hok
  rw [heq]
  have hold : ∀ l, l < vm.ndevices → Function.update vm.devices vm.ndevices d l = vm.devices l := by
    intro l hl
    simp [Function.update, Nat.ne_of_lt hl]
  have hnew : Function.update vm.devices vm.ndevices d vm.ndevices = d := by simp
  constructor
  · intro j hj
    obtain ⟨h1, h2, h3⟩ := (vm_find_device_some_iff vm cmp j).1 hj
    refine ⟨?_, hold j h1⟩
    rw [vm_find_device_some_iff]
    refine ⟨Nat.lt_succ_of_lt h1, ?_, ?_⟩
    · show cmp (Function.update vm.devices vm.ndevices d j) = 0
      rw [hold j h1]; exact h2
    · intro l hl
      show cmp (Function.update vm.devices vm.ndevices d l) ≠ 0
      rw [hold l (by omega)]; exact h3 l hl
  · intro hnone
    have hall := (vm_find_device_none_iff vm cmp).1 hnone
    constructor
    · intro hc
      refine ⟨?_, hnew⟩
      rw [vm_find_device_some_iff]
      refine ⟨Nat.lt_succ_self _, ?_, ?_⟩
      · show cmp (Function.update vm.devices vm.ndevices d vm.ndevices) = 0
        rw [hnew]; exact hc
      · intro l hl
        show cmp (Function.update vm.devices vm.ndevices d l) ≠ 0
        rw [hold l hl]; exact hall l hl
    · intro hc
      rw [vm_find_device_none_iff]
      intro l hl
      show cmp (Function.update vm.devices vm.ndevices d l) ≠ 0
      have hl2 : l < vm.ndevices + 1 := hl
      by_cases hln : l = vm.ndevices
      · rw [hln, hnew]; exact hc
      · rw [hold l (by omega)]; exact hall l (by omega)

/-- C20: a successful `vm_add_device` keeps every existing lookup.  If
`vm_find_device_by_ipa(addr)` (respectively `vm_find_device_by_id(id)`) found a slot before the
install, it finds the same slot, holding the same entry, afterwards; if it found nothing
before, afterwards it finds the newly written slot, holding `d`, exactly when the range of
`d` contains `addr` (respectively the identity of `d` is `id`), and nothing otherwise. -/
theorem vm_add_device_preserves_lookup (MAXD : Nat) (vm : vm_t) (d : device) (addr id : Nat)
    (hok : (vm_add_device MAXD vm d).1 = 0) :
    ((∀ j, vm_find_device_by_ipa vm addr = some j →
        vm_find_device_by_ipa (vm_add_device MAXD vm d).2 addr = some j ∧
          (vm_add_device MAXD vm d).2.devices j = vm.devices j) ∧
     (vm_find_device_by_ipa vm addr = none →
        (dev_paddr_in_range addr d = true →
          vm_find_device_by_ipa (vm_add_device MAXD vm d).2 addr = some vm.ndevices ∧
            (vm_add_device MAXD vm d).2.devices vm.ndevices = d) ∧
        (dev_paddr_in_range addr d = false →
          vm_find_device_by_ipa (vm_add_device MAXD vm d).2 addr = none))) ∧
    ((∀ j, vm_find_device_by_id vm id = some j →
        vm_find_device_by_id (vm_add_device MAXD vm d).2 id = some j ∧
          (vm_add_device MAXD vm d).2.devices j = vm.devices j) ∧
     (vm_find_device_by_id vm id = none →
        (d.devid = id →
          vm_find_device_by_id (vm_add_device MAXD vm d).2 id = some vm.ndevices ∧
            (vm_add_device MAXD vm d).2.devices vm.ndevices = d) ∧
        (d.devid ≠ id →
          vm_find_device_by_id (vm_add_device MAXD vm d).2 id = none))) := by
  have h1 := vm_find_device_after_add MAXD vm d (fun x => cmp_ipa x addr) hok
  have h2 := vm_find_device_after_add MAXD vm d (fun x => cmp_id x id) hok
  refine ⟨⟨h1.1, fun hn => ⟨fun hin => (h1.2 hn).1 ((cmp_ipa_eq_zero_iff d addr).2 hin),
      fun hout => (h1.2 hn).2 ?_⟩⟩,
    ⟨h2.1, fun hn => ⟨fun hin => (h2.2 hn).1 ((cmp_id_eq_zero_iff d id).2 hin),
      fun hout => (h2.2 hn).2 ?_⟩⟩⟩
  · intro hc
    rw [(cmp_ipa_eq_zero_iff d addr).1 hc] at hout
    exact absurd hout (by simp)
  · intro hc
    exact hout ((cmp_id_eq_zero_iff d id).1 hc)

/-- C20, concrete instance: installing a device for `[0x5000, 0x5010)` with identity 3 in the
sample VM (capacity 4) keeps the lookup of `0x3010` at slot 1, turns the failed lookup of
`0x5004` into slot 2, and keeps the lookup of identity 2 at slot 1. -/
theorem vm_add_device_preserves_lookup_witness :
    vm_find_device_by_ipa (vm_add_device 4 sampleVm (mkDev 3 0x5000 0x10 300)).2 0x3010 = some 1 ∧
    vm_find_device_by_ipa (vm_add_device 4 sampleVm (mkDev 3 0x5000 0x10 300)).2 0x5004 = some 2 ∧
    vm_find_device_by_id (vm_add_device 4 sampleVm (mkDev 3 0x5000 0x10 300)).2 2 = some 1 :=
  ⟨((vm_add_device_preserves_lookup 4 sampleVm (mkDev 3 0x5000 0x10 300) 0x3010 2 rfl).1.1 1
      (by decide)).1,
   (((vm_add_device_preserves_lookup 4 sampleVm (mkDev 3 0x5000 0x10 300) 0x5004 2 rfl).1.2
      (by decide)).1 (by decide)).1,
   ((vm_add_device_preserves_lookup 4 sampleVm (mkDev 3 0x5000 0x10 300) 0x3010 2 rfl).2.1 1
      (by decide)).1⟩


end Vmm
